import Mathlib

/-!
# Space Invaders: the simulation core of `src/main/space.jsx`

A shallow embedding of the zustand store (`useGameStore`), of the per-frame callback of
`GameLogic` and of the per-frame callback of `Player`.

Modelling conventions.
* JavaScript numbers are exact rationals (`ℚ`); rounding of floating point is not modelled.
  `lives` only ever holds integers and is an `ℤ`.
* `Math.sqrt` and `Math.sin` are the two fields of `MathFns`, a parameter of the model.
  `Math.floor` is `Int.floor`, `Math.abs` is `|·|`, `Math.max`/`Math.min` are `max`/`min`.
* `Math.random()` is a stream `rng : ℕ → ℚ`; `rng k` is the result of the `k`-th call made
  during the frame.
* `state.clock.getElapsedTime()` is one value `now` per frame, `delta` is the frame delta.
* The string tags `type` of enemies and power-ups are enumerations.
* `playSound` only writes a line to the console and is left out.
-/

namespace SpaceInvaders

/-! ## Data model -/

/-- The array `[x, y, z]` used for positions and velocities. -/
structure Vec3 where
  x : ℚ
  y : ℚ
  z : ℚ
deriving DecidableEq

/-- The tag `enemy.type`: `"straight"` or `"zigzag"`. -/
inductive EnemyType where
  | straight
  | zigzag
deriving DecidableEq

/-- The tag `powerUp.type`: `'speed'`, `'shield'` or `'multi-shot'`. -/
inductive PowerUpType where
  | speed
  | shield
  | multiShot
deriving DecidableEq

/-- An element of `bullets`. -/
structure Bullet where
  position : Vec3
  velocity : Vec3
deriving DecidableEq

/-- An element of `powerUps` (a falling pickup). -/
structure PowerUp where
  position : Vec3
  type : PowerUpType
  duration : ℚ
deriving DecidableEq

/-- An element of `enemies`. -/
structure Enemy where
  position : Vec3
  initialPosition : Vec3
  velocity : Vec3
  type : EnemyType
  amplitude : ℚ
  frequency : ℚ
  spawnTime : ℚ
deriving DecidableEq

/-- An element of `collectibles`. -/
structure Collectible where
  position : Vec3
  velocity : Vec3
  size : ℚ
  spawnTime : ℚ
deriving DecidableEq

/-- An element of `explosions`. -/
structure Explosion where
  position : Vec3
  time : ℚ
deriving DecidableEq

/-- An element of `activePowerUps`. -/
structure ActivePowerUp where
  type : PowerUpType
  startTime : ℚ
  duration : ℚ
deriving DecidableEq

/-- The state held by `useGameStore`. -/
structure Store where
  score : ℚ
  lives : ℤ
  gameOver : Bool
  gameStarted : Bool
  playerPosition : Vec3
  playerVelocity : Vec3
  bullets : List Bullet
  powerUps : List PowerUp
  enemies : List Enemy
  collectibles : List Collectible
  explosions : List Explosion
  activePowerUps : List ActivePowerUp
deriving DecidableEq

/-- The initial value of the store (lines 14-25). -/
def initialStore : Store :=
  { score := 0, lives := 3, gameOver := false, gameStarted := false,
    playerPosition := ⟨0, -8, 0⟩, playerVelocity := ⟨0, 0, 0⟩,
    bullets := [], powerUps := [], enemies := [], collectibles := [],
    explosions := [], activePowerUps := [] }

/-- The library functions `Math.sqrt` and `Math.sin`. -/
structure MathFns where
  sqrt : ℚ → ℚ
  sin : ℚ → ℚ

/-! ## Store actions (lines 26-55) -/

/-- The filter `xs.filter((_, i) => i !== index)`. -/
def removeAt {α : Type} (xs : List α) (index : ℕ) : List α :=
  (xs.enum.filter (fun p => p.1 != index)).map Prod.snd

/-- Action `setScore(points)`: adds `points` to the score. -/
def setScore (points : ℚ) (s : Store) : Store :=
  { s with score := s.score + points }

/-- Action `setLives(lives)`: stores `Math.max(0, lives)`. -/
def setLives (lives : ℤ) (s : Store) : Store :=
  { s with lives := max 0 lives }

/-- Action `setGameOver(gameOver)`. -/
def setGameOver (gameOver : Bool) (s : Store) : Store :=
  { s with gameOver := gameOver }

/-- Action `startGame()`. -/
def startGame (s : Store) : Store :=
  { s with
    gameStarted := true, gameOver := false, score := 0, lives := 3,
    bullets := [], powerUps := [], enemies := [], collectibles := [],
    explosions := [], activePowerUps := [] }

/-- Action `addBullet(bullet)`. -/
def addBullet (b : Bullet) (s : Store) : Store :=
  { s with bullets := s.bullets ++ [b] }

/-- Action `addPowerUp(powerUp)`. -/
def addPowerUp (p : PowerUp) (s : Store) : Store :=
  { s with powerUps := s.powerUps ++ [p] }

/-- Action `addEnemy(enemy)`. -/
def addEnemy (e : Enemy) (s : Store) : Store :=
  { s with enemies := s.enemies ++ [e] }

/-- Action `addCollectible(collectible)`. -/
def addCollectible (c : Collectible) (s : Store) : Store :=
  { s with collectibles := s.collectibles ++ [c] }

/-- Action `addExplosion(explosion)`. -/
def addExplosion (e : Explosion) (s : Store) : Store :=
  { s with explosions := s.explosions ++ [e] }

/-- Action `activatePowerUp(powerUp)`. -/
def activatePowerUp (p : ActivePowerUp) (s : Store) : Store :=
  { s with activePowerUps := s.activePowerUps ++ [p] }

/-- Action `removeBullet(index)`. -/
def removeBullet (index : ℕ) (s : Store) : Store :=
  { s with bullets := removeAt s.bullets index }

/-- Action `removePowerUp(index)`. -/
def removePowerUp (index : ℕ) (s : Store) : Store :=
  { s with powerUps := removeAt s.powerUps index }

/-- Action `removeEnemy(index)`. -/
def removeEnemy (index : ℕ) (s : Store) : Store :=
  { s with enemies := removeAt s.enemies index }

/-- Action `removeCollectible(index)`. -/
def removeCollectible (index : ℕ) (s : Store) : Store :=
  { s with collectibles := removeAt s.collectibles index }

/-! ## `GameLogic`: the frame callback (lines 332-498) -/

/-- The component `GameLogic`: the store and the three timer refs. -/
structure GameLogic where
  store : Store
  enemySpawnTimer : ℚ
  powerUpSpawnTimer : ℚ
  collectibleSpawnTimer : ℚ
deriving DecidableEq

/-- Enemy spawner (lines 342-361). `k` counts the `Math.random()` calls made so far. -/
def spawnEnemy (rng : ℕ → ℚ) (now delta : ℚ) (g : GameLogic) (k : ℕ) : GameLogic × ℕ :=
  let timer := g.enemySpawnTimer + delta
  if 2 ≤ timer then
    let x := rng k * 16 - 8
    let type := if rng (k + 1) < 3 / 10 then EnemyType.zigzag else EnemyType.straight
    let velocity : Vec3 :=
      if type = EnemyType.straight then ⟨rng (k + 2) * 2 - 1, -3 - rng (k + 3) * 2, 0⟩
      else ⟨0, -3 - rng (k + 2) * 2, 0⟩
    let amplitude : ℚ := if type = EnemyType.zigzag then 2 else 0
    let frequency : ℚ := if type = EnemyType.zigzag then 5 else 0
    let k' := if type = EnemyType.straight then k + 4 else k + 3
    ({ g with
        store := addEnemy
          { position := ⟨x, 10, 0⟩, initialPosition := ⟨x, 10, 0⟩, velocity := velocity,
            type := type, amplitude := amplitude, frequency := frequency, spawnTime := now }
          g.store
        enemySpawnTimer := 0 }, k')
  else ({ g with enemySpawnTimer := timer }, k)

/-- Power-up spawner (lines 363-374). -/
def spawnPowerUp (rng : ℕ → ℚ) (delta : ℚ) (g : GameLogic) (k : ℕ) : GameLogic × ℕ :=
  let timer := g.powerUpSpawnTimer + delta
  if 10 ≤ timer then
    let x := rng k * 16 - 8
    let type :=
      if rng (k + 1) < 33 / 100 then PowerUpType.speed
      else if rng (k + 2) < 66 / 100 then PowerUpType.shield
      else PowerUpType.multiShot
    let k' := if rng (k + 1) < 33 / 100 then k + 2 else k + 3
    ({ g with
        store := addPowerUp { position := ⟨x, 10, 0⟩, type := type, duration := 5 } g.store
        powerUpSpawnTimer := 0 }, k')
  else ({ g with powerUpSpawnTimer := timer }, k)

/-- The expression of line 367 as a function of the results `r1`, `r2` of its two
`Math.random()` calls (the second call is made only when the first comparison fails), over
any ordered field, so that it can be read on the rationals and on the reals. -/
def powerUpTypeOf {K : Type} [LinearOrderedField K] (r1 r2 : K) : PowerUpType :=
  if r1 < 33 / 100 then PowerUpType.speed
  else if r2 < 66 / 100 then PowerUpType.shield
  else PowerUpType.multiShot

/-- Collectible spawner (lines 376-388). -/
def spawnCollectible (rng : ℕ → ℚ) (now delta : ℚ) (g : GameLogic) (k : ℕ) : GameLogic × ℕ :=
  let timer := g.collectibleSpawnTimer + delta
  if 5 ≤ timer then
    let x := rng k * 16 - 8
    let size := 3 / 10 + rng (k + 1) * (7 / 10)
    ({ g with
        store := addCollectible
          { position := ⟨x, 10, 0⟩, velocity := ⟨0, -2, 0⟩, size := size, spawnTime := now }
          g.store
        collectibleSpawnTimer := 0 }, k + 2)
  else ({ g with collectibleSpawnTimer := timer }, k)

/-- The three spawners in source order, after the score accrual of line 340. -/
def spawnPhase (rng : ℕ → ℚ) (now delta : ℚ) (g : GameLogic) : GameLogic :=
  let r1 := spawnEnemy rng now delta g 0
  let r2 := spawnPowerUp rng delta r1.1 r1.2
  (spawnCollectible rng now delta r2.1 r2.2).1

/-- The box test `Math.abs(a[0] - b[0]) < 0.6 && Math.abs(a[1] - b[1]) < 0.6`. -/
def overlaps (a b : Vec3) : Bool :=
  decide (|a.x - b.x| < 6 / 10) && decide (|a.y - b.y| < 6 / 10)

/-- Body of the inner `bullets.forEach` (lines 402-414) for one snapshot bullet. -/
def bulletHit (now : ℚ) (enemy : Enemy) (enemyIndex : ℕ) (st : Store) (ib : ℕ × Bullet) : Store :=
  if overlaps enemy.position ib.2.position then
    setScore 100
      (addExplosion { position := enemy.position, time := now }
        (removeBullet ib.1 (removeEnemy enemyIndex st)))
  else st

/-- Body of `enemies.forEach` (lines 393-416) for one snapshot enemy: the accumulator is the
store and the array `playerCollisions`. -/
def enemyScanStep (playerPosition : Vec3) (bullets : List Bullet) (now : ℚ)
    (acc : Store × List ℕ) (ie : ℕ × Enemy) : Store × List ℕ :=
  let pc := if overlaps ie.2.position playerPosition then acc.2 ++ [ie.1] else acc.2
  (bullets.enum.foldl (bulletHit now ie.2 ie.1) acc.1, pc)

/-- The enemy scan (lines 392-416) over the snapshot `snap` destructured at line 390. -/
def enemyScan (now : ℚ) (snap : Store) : Store × List ℕ :=
  snap.enemies.enum.foldl (enemyScanStep snap.playerPosition snap.bullets now) (snap, [])

/-- Closed form of the array `playerCollisions` after the scan: the snapshot indices of the
enemies that pass the box test against the player, in increasing order. -/
def collidingIndices (snap : Store) : List ℕ :=
  (snap.enemies.enum.filter (fun ie => overlaps ie.2.position snap.playerPosition)).map Prod.fst

/-- Lines 418-424: removal of the collided enemies and the lives update. -/
def resolvePlayerCollisions (pc : List ℕ) (st : Store) : Store :=
  if 0 < pc.length then
    let sorted := pc.insertionSort (fun a b => b ≤ a)
    let st1 := sorted.foldl (fun s index => removeEnemy index s) st
    let newLives : ℤ := st1.lives - pc.length
    let st2 := setLives newLives st1
    if newLives ≤ 0 then setGameOver true st2 else st2
  else st

/-- Body of `powerUps.forEach` (lines 426-439). -/
def powerUpStep (playerPosition : Vec3) (now : ℚ) (st : Store) (ip : ℕ × PowerUp) : Store :=
  if overlaps ip.2.position playerPosition then
    activatePowerUp { type := ip.2.type, startTime := now, duration := ip.2.duration }
      (removePowerUp ip.1 st)
  else st

/-- The power-up scan over the snapshot. -/
def powerUpScan (now : ℚ) (snap : Store) (st : Store) : Store :=
  snap.powerUps.enum.foldl (powerUpStep snap.playerPosition now) st

/-- The value `distance` of line 442. -/
def collectibleDistance (M : MathFns) (playerPosition : Vec3) (c : Collectible) : ℚ :=
  M.sqrt ((c.position.x - playerPosition.x) ^ 2 + (c.position.y - playerPosition.y) ^ 2)

/-- The pickup test `distance < 0.5 + collectible.size / 2`. -/
def inPickupRange (M : MathFns) (playerPosition : Vec3) (c : Collectible) : Bool :=
  decide (collectibleDistance M playerPosition c < 1 / 2 + c.size / 2)

/-- The points `Math.floor(collectible.size * 100)`. -/
def collectiblePoints (c : Collectible) : ℚ :=
  ((⌊c.size * 100⌋ : ℤ) : ℚ)

/-- Body of `collectibles.forEach` (lines 441-452). -/
def collectibleStep (M : MathFns) (playerPosition : Vec3) (st : Store)
    (ic : ℕ × Collectible) : Store :=
  if inPickupRange M playerPosition ic.2 then
    setScore (collectiblePoints ic.2) (removeCollectible ic.1 st)
  else st

/-- The collectible scan over the snapshot. -/
def collectibleScan (M : MathFns) (snap : Store) (st : Store) : Store :=
  snap.collectibles.enum.foldl (collectibleStep M snap.playerPosition) st

/-- The recomputed enemy of lines 458-463. -/
def moveEnemy (M : MathFns) (currentTime : ℚ) (enemy : Enemy) : Enemy :=
  let timeElapsed := currentTime - enemy.spawnTime
  let newX :=
    if enemy.type = EnemyType.straight then
      enemy.initialPosition.x + enemy.velocity.x * timeElapsed
    else enemy.initialPosition.x + enemy.amplitude * M.sin (enemy.frequency * timeElapsed)
  let newY := enemy.initialPosition.y + enemy.velocity.y * timeElapsed
  { enemy with position := ⟨newX, newY, 0⟩ }

/-- The moved collectible of lines 467-474. -/
def moveCollectible (delta : ℚ) (c : Collectible) : Collectible :=
  { c with
    position :=
      ⟨c.position.x + c.velocity.x * delta, c.position.y + c.velocity.y * delta, 0⟩ }

/-- The moved power-up of lines 477-480. -/
def movePowerUp (delta : ℚ) (p : PowerUp) : PowerUp :=
  { p with position := ⟨p.position.x, p.position.y - 2 * delta, 0⟩ }

/-- The moved bullet of lines 483-490. -/
def moveBullet (delta : ℚ) (b : Bullet) : Bullet :=
  { b with
    position :=
      ⟨b.position.x + b.velocity.x * delta, b.position.y + b.velocity.y * delta, 0⟩ }

/-- The movement step (lines 454-494). -/
def movement (M : MathFns) (currentTime delta : ℚ) (st : Store) : Store :=
  { st with
    enemies := (st.enemies.map (moveEnemy M currentTime)).filter
      (fun enemy => decide (-12 < enemy.position.y))
    collectibles := (st.collectibles.map (moveCollectible delta)).filter
      (fun c => decide (-12 < c.position.y))
    powerUps := (st.powerUps.map (movePowerUp delta)).filter
      (fun p => decide (-12 < p.position.y))
    bullets := (st.bullets.map (moveBullet delta)).filter
      (fun b => decide (b.position.y < 12))
    explosions := st.explosions.filter (fun e => decide (currentTime - e.time < 5))
    activePowerUps := st.activePowerUps.filter
      (fun pu => decide (currentTime - pu.startTime < pu.duration)) }

/-- The store destructured at line 390: score accrued, spawners run. -/
def snapshot (rng : ℕ → ℚ) (now delta : ℚ) (g : GameLogic) : Store :=
  (spawnPhase rng now delta { g with store := setScore (delta * 20) g.store }).store

/-- Lines 390-452: the collision scans, from the snapshot to the store before movement. -/
def collisionPhase (M : MathFns) (now : ℚ) (snap : Store) : Store :=
  let r := enemyScan now snap
  collectibleScan M snap (powerUpScan now snap (resolvePlayerCollisions r.2 r.1))

/-- One call of the `useFrame` callback of `GameLogic`. -/
def gameLogicTick (M : MathFns) (rng : ℕ → ℚ) (now delta : ℚ) (g : GameLogic) : GameLogic :=
  if g.store.gameOver then g
  else
    let g1 := spawnPhase rng now delta { g with store := setScore (delta * 20) g.store }
    { g1 with store := movement M now delta (collisionPhase M now g1.store) }

/-! ## `Player`: the frame callback (lines 528-585) -/

/-- The React state `keys`. -/
structure Keys where
  left : Bool
  right : Bool
  up : Bool
  down : Bool
  shoot : Bool
deriving DecidableEq

/-- The object `playerRef.current`: position and the two rotations the callback sets. -/
structure PlayerMesh where
  position : Vec3
  rotationX : ℚ
  rotationZ : ℚ
deriving DecidableEq

/-- The component `Player`: the store, `playerRef.current` (absent before mount) and
`shootTimer.current`. -/
structure Player where
  store : Store
  mesh : Option PlayerMesh
  shootTimer : ℚ
deriving DecidableEq

/-- The value `activePowerUps.some((pu) => pu.type === 'speed')`. -/
def speedActive (aps : List ActivePowerUp) : Bool :=
  aps.any (fun pu => decide (pu.type = PowerUpType.speed))

/-- The constant `maxSpeed` of line 532. -/
def maxSpeed (aps : List ActivePowerUp) : ℚ :=
  if speedActive aps then 8 else 6

/-- The constant `shootInterval` of line 569. -/
def shootInterval (aps : List ActivePowerUp) : ℚ :=
  if speedActive aps then 5 / 100 else 15 / 100

/-- The pair `(newVelX, newVelY)` after lines 536-544: the stored velocity plus the
acceleration of the held keys, before the speed cap. -/
def rawVelocity (keys : Keys) (delta : ℚ) (playerVelocity : Vec3) : ℚ × ℚ :=
  let acceleration : ℚ := 30
  let accelX0 : ℚ := 0
  let accelY0 : ℚ := 0
  let accelX1 := if keys.left then accelX0 - acceleration else accelX0
  let accelX := if keys.right then accelX1 + acceleration else accelX1
  let accelY1 := if keys.up then accelY0 + acceleration else accelY0
  let accelY := if keys.down then accelY1 - acceleration else accelY1
  (playerVelocity.x + accelX * delta, playerVelocity.y + accelY * delta)

/-- The pair `(newVelX, newVelY)` after lines 545-553: speed cap, then deceleration on the
axes without a held key. -/
def newVelocity (M : MathFns) (keys : Keys) (delta : ℚ) (playerVelocity : Vec3)
    (aps : List ActivePowerUp) : ℚ × ℚ :=
  let deceleration : ℚ := 20
  let raw := rawVelocity keys delta playerVelocity
  let speed := M.sqrt (raw.1 ^ 2 + raw.2 ^ 2)
  let ratio := maxSpeed aps / speed
  let newVelX1 := if maxSpeed aps < speed then raw.1 * ratio else raw.1
  let newVelY1 := if maxSpeed aps < speed then raw.2 * ratio else raw.2
  let newVelX := if !keys.left && !keys.right then newVelX1 - newVelX1 * deceleration * delta
    else newVelX1
  let newVelY := if !keys.up && !keys.down then newVelY1 - newVelY1 * deceleration * delta
    else newVelY1
  (newVelX, newVelY)

/-- The value `isMultiShotActive` of lines 572-574. -/
def multiShotActive (currentTime : ℚ) (aps : List ActivePowerUp) : Bool :=
  aps.any (fun pu =>
    decide (pu.type = PowerUpType.multiShot) && decide (currentTime - pu.startTime < pu.duration))

/-- Lines 575-581: the bullets added when the player fires. -/
def fire (multi : Bool) (clampedX clampedY : ℚ) (st : Store) : Store :=
  if multi then
    addBullet { position := ⟨clampedX + 3 / 10, clampedY + 6 / 10, 0⟩, velocity := ⟨1, 10, 0⟩ }
      (addBullet { position := ⟨clampedX, clampedY + 6 / 10, 0⟩, velocity := ⟨0, 10, 0⟩ }
        (addBullet
          { position := ⟨clampedX - 3 / 10, clampedY + 6 / 10, 0⟩, velocity := ⟨-1, 10, 0⟩ } st))
  else
    addBullet { position := ⟨clampedX, clampedY + 6 / 10, 0⟩, velocity := ⟨0, 10, 0⟩ } st

/-- One call of the `useFrame` callback of `Player`. -/
def playerFrame (M : MathFns) (keys : Keys) (now delta : ℚ) (p : Player) : Player :=
  match p.mesh with
  | none => p
  | some mesh =>
    if p.store.gameOver then p
    else
      let aps := p.store.activePowerUps
      let v := newVelocity M keys delta p.store.playerVelocity aps
      let newX := mesh.position.x + v.1 * delta
      let newY := mesh.position.y + v.2 * delta
      let clampedX := max (-8) (min 8 newX)
      let clampedY := max (-8) (min 8 newY)
      let mesh' : PlayerMesh :=
        { position := ⟨clampedX, clampedY, 0⟩, rotationZ := -v.1 * (1 / 10),
          rotationX := v.2 * (5 / 100) }
      let st1 : Store :=
        { p.store with
          playerPosition := ⟨clampedX, clampedY, 0⟩, playerVelocity := ⟨v.1, v.2, 0⟩ }
      let timer := p.shootTimer + delta
      if keys.shoot && decide (shootInterval aps ≤ timer) then
        { store := fire (multiShotActive now aps) clampedX clampedY st1,
          mesh := some mesh', shootTimer := 0 }
      else { store := st1, mesh := some mesh', shootTimer := timer }

/-! ## Runs -/

/-- The store states of a run: the initial store, and what `startGame`, a frame of
`GameLogic` and a frame of `Player` make of a state of a run, for any inputs and any values
of the refs local to the two components. -/
inductive Reachable : Store → Prop where
  | initial : Reachable initialStore
  | start (s : Store) : Reachable s → Reachable (startGame s)
  | tick (M : MathFns) (rng : ℕ → ℚ) (now delta : ℚ) (g : GameLogic) :
      Reachable g.store → Reachable (gameLogicTick M rng now delta g).store
  | player (M : MathFns) (keys : Keys) (now delta : ℚ) (p : Player) :
      Reachable p.store → Reachable (playerFrame M keys now delta p).store

/-- The store states reached from `s0` by any sequence of frames of `GameLogic` and of
`Player`, for any inputs and any values of the refs local to the two components. -/
inductive ReachableFrom (s0 : Store) : Store → Prop where
  | refl : ReachableFrom s0 s0
  | tick (M : MathFns) (rng : ℕ → ℚ) (now delta : ℚ) (g : GameLogic) :
      ReachableFrom s0 g.store → ReachableFrom s0 (gameLogicTick M rng now delta g).store
  | player (M : MathFns) (keys : Keys) (now delta : ℚ) (p : Player) :
      ReachableFrom s0 p.store → ReachableFrom s0 (playerFrame M keys now delta p).store

/-! ## Concrete inputs -/

/-- Library functions used to evaluate the model on concrete inputs: `Rat.sqrt` is the exact
root on squares of rationals, and the sine is its cubic Taylor polynomial, exact at `0`. -/
def evalMath : MathFns :=
  { sqrt := Rat.sqrt, sin := fun x => x - x ^ 3 / 6 }

/-- A motionless straight enemy stored at `(x, y, 0)`. -/
def enemyAt (x y : ℚ) : Enemy :=
  { position := ⟨x, y, 0⟩, initialPosition := ⟨x, y, 0⟩, velocity := ⟨0, 0, 0⟩,
    type := EnemyType.straight, amplitude := 0, frequency := 0, spawnTime := 0 }

/-- A started game with the given player position, enemies, bullets and collectibles, all
timers at zero. -/
def gameWith (player : Vec3) (enemies : List Enemy) (bullets : List Bullet)
    (collectibles : List Collectible) : GameLogic :=
  { store :=
      { initialStore with
        gameStarted := true, playerPosition := player, enemies := enemies,
        bullets := bullets, collectibles := collectibles },
    enemySpawnTimer := 0, powerUpSpawnTimer := 0, collectibleSpawnTimer := 0 }

/-- A bullet stored at `(x, y, 0)` with the velocity `(0, 10, 0)` of a single shot. -/
def bulletAt (x y : ℚ) : Bullet :=
  { position := ⟨x, y, 0⟩, velocity := ⟨0, 10, 0⟩ }

/-- A collectible stored at `(x, y, 0)` with the spawner's velocity `(0, -2, 0)`. -/
def collectibleAt (x y size : ℚ) : Collectible :=
  { position := ⟨x, y, 0⟩, velocity := ⟨0, -2, 0⟩, size := size, spawnTime := 0 }

/-- Three lives, three enemies on the player. -/
def threeOnPlayer : GameLogic :=
  gameWith ⟨0, -8, 0⟩ [enemyAt 0 (-8), enemyAt (1 / 10) (-8), enemyAt 0 (-79 / 10)] [] []

/-- One bullet inside the box of the first two of three enemies. -/
def oneBulletTwoEnemies : GameLogic :=
  gameWith ⟨0, -8, 0⟩ [enemyAt 0 0, enemyAt (1 / 10) 0, enemyAt 5 5] [bulletAt 0 0] []

/-- Two bullets inside the box of a single enemy. -/
def twoBulletsOneEnemy : GameLogic :=
  gameWith ⟨0, -8, 0⟩ [enemyAt 0 0] [bulletAt 0 0, bulletAt (1 / 10) 0] []

/-- Two collectibles on the player and a third one at distance 5. -/
def threeCollectibles : GameLogic :=
  gameWith ⟨0, -8, 0⟩ [] []
    [collectibleAt 0 (-8) (1 / 2), collectibleAt 0 (-8) (3 / 5), collectibleAt 3 (-4) (7 / 10)]

/-- A started game without entities. -/
def emptyGame : GameLogic :=
  gameWith ⟨0, -8, 0⟩ [] [] []

/-- A straight enemy spawned at time 0 at `(0, 10)` with velocity `(0, -4, 0)`, carrying the
position the movement step stored for it at time `19 / 5`. -/
def descendingEnemy : Enemy :=
  { position := ⟨0, -26 / 5, 0⟩, initialPosition := ⟨0, 10, 0⟩, velocity := ⟨0, -4, 0⟩,
    type := EnemyType.straight, amplitude := 0, frequency := 0, spawnTime := 0 }

/-- The player at `(0, -6)` below `descendingEnemy`. -/
def descendingGame : GameLogic :=
  gameWith ⟨0, -6, 0⟩ [descendingEnemy] [] []

/-- The snapshot enemies that pass the box test against at least one snapshot bullet. -/
def hitEnemies (snap : Store) : List Enemy :=
  snap.enemies.filter (fun e => snap.bullets.any (fun b => overlaps e.position b.position))

/-- No key held. -/
def noKeys : Keys :=
  { left := false, right := false, up := false, down := false, shoot := false }

/-- Only `up` held. -/
def upKey : Keys :=
  { left := false, right := false, up := true, down := false, shoot := false }

/-- The mounted player of a started game, at rest at `(0, -8)`. -/
def restingPlayer : Player :=
  { store := { initialStore with gameStarted := true },
    mesh := some { position := ⟨0, -8, 0⟩, rotationX := 0, rotationZ := 0 },
    shootTimer := 0 }

/-- The mounted player of a started game, at `(0, 0)` with the velocity `(6, 0, 0)`. -/
def coastingPlayer : Player :=
  { store := { initialStore with gameStarted := true, playerPosition := ⟨0, 0, 0⟩,
                                 playerVelocity := ⟨6, 0, 0⟩ },
    mesh := some { position := ⟨0, 0, 0⟩, rotationX := 0, rotationZ := 0 },
    shootTimer := 0 }

/-- Only the fire key held. -/
def shootKey : Keys :=
  { left := false, right := false, up := false, down := false, shoot := true }

/-- The resting player with an unexpired `multi-shot` power-up picked up at time 0. -/
def multiShotPlayer : Player :=
  { store := { initialStore with
      gameStarted := true
      activePowerUps := [{ type := PowerUpType.multiShot, startTime := 0, duration := 5 }] },
    mesh := some { position := ⟨0, -8, 0⟩, rotationX := 0, rotationZ := 0 },
    shootTimer := 1 / 10 }

/-- A store after game over, with entities left in it. -/
def finishedStore : Store :=
  { initialStore with
    gameStarted := true, gameOver := true, lives := 0, score := 1234,
    enemies := [enemyAt 0 (-8)], bullets := [bulletAt 0 0],
    collectibles := [collectibleAt 0 (-8) (1 / 2)] }

/-- A started game with one bullet below the upper bound and one about to cross it, and no
enemy. -/
def twoBulletsGame : GameLogic :=
  gameWith ⟨0, -8, 0⟩ [] [bulletAt 0 0, bulletAt 1 (119 / 10)] []

/-- One bullet inside the box of one enemy. -/
def bulletOnEnemy : GameLogic :=
  gameWith ⟨0, -8, 0⟩ [enemyAt 0 0] [bulletAt 0 0] []

/-- Two enemies at `(0, 0)` and `(3, 0)`, a bullet on each, and a third bullet at `(6, 0)`
that overlaps nothing. -/
def threeBulletsTwoEnemies : GameLogic :=
  gameWith ⟨0, -8, 0⟩ [enemyAt 0 0, enemyAt 3 0] [bulletAt 0 0, bulletAt 3 0, bulletAt 6 0] []

/-- Only `right` held. -/
def rightKey : Keys :=
  { left := false, right := true, up := false, down := false, shoot := false }

/-- The resting player after `right` has been held for two frames of 0.1 s. -/
def cappedPlayer : Player :=
  playerFrame evalMath rightKey (2 / 10) (1 / 10)
    (playerFrame evalMath rightKey (1 / 10) (1 / 10) restingPlayer)

/-- The component `GameLogic` right after `startGame` on the initial store. -/
def startedGame : GameLogic :=
  { store := startGame initialStore, enemySpawnTimer := 0, powerUpSpawnTimer := 0,
    collectibleSpawnTimer := 0 }

/-- Three frames after `startGame`, every `Math.random()` returning 0.5: the first (2 s)
spawns a straight enemy at `(0, 10)` with velocity `(0, -4, 0)`, the second (elapsed time
4.5) moves it onto the player at `(0, -8)`, the third registers the collision. -/
def threeFrames : GameLogic :=
  gameLogicTick evalMath (fun _ => 1 / 2) (9 / 2 + 1 / 60) (1 / 60)
    (gameLogicTick evalMath (fun _ => 1 / 2) (9 / 2) (1 / 60)
      (gameLogicTick evalMath (fun _ => 1 / 2) 0 2 startedGame))

/-- Four enemies, the first and the third on the player, no bullet. -/
def mixedEnemies : GameLogic :=
  gameWith ⟨0, -8, 0⟩ [enemyAt 0 (-8), enemyAt 5 5, enemyAt (1 / 10) (-8), enemyAt 3 3] [] []

/-- The results of `Math.random()` for one power-up spawn: 0.5 for the position, 0.9 for the
first comparison of line 367, 0.5 for the second. -/
def spawnDraws : ℕ → ℚ :=
  fun k => if k = 1 then 9 / 10 else 1 / 2

/-- A started game whose power-up timer has reached 10 s. -/
def powerUpDue : GameLogic :=
  { store := { initialStore with gameStarted := true },
    enemySpawnTimer := 0, powerUpSpawnTimer := 10, collectibleSpawnTimer := 0 }

/-! ## Specification-side definitions -/

/-- The bullet hits of a frame: one entry, the enemy, for every pair of a snapshot enemy and
a snapshot bullet that pass the box test, in scan order. -/
def bulletHits (snap : Store) : List Enemy :=
  snap.enemies.flatMap (fun e =>
    (snap.bullets.filter (fun b => overlaps e.position b.position)).map (fun _ => e))

/-- The snapshot collectibles within pickup range of the player. -/
def pickedUp (M : MathFns) (snap : Store) : List Collectible :=
  snap.collectibles.filter (fun c => inPickupRange M snap.playerPosition c)

/-- The elements of `xs` whose position, counted from `n`, satisfies `q`. -/
def keepIndices {α : Type} (n : ℕ) (q : ℕ → Bool) (xs : List α) : List α :=
  ((xs.enumFrom n).filter (fun p => q p.1)).map Prod.snd

/-! ## Frame lemmas: what each phase leaves alone -/

theorem foldl_frame {α β γ : Type} (f : β → α → β) (proj : β → γ)
    (h : ∀ b a, proj (f b a) = proj b) (l : List α) (b : β) :
    proj (l.foldl f b) = proj b := by
  induction l generalizing b with
  | nil => rfl
  | cons a l ih => rw [List.foldl_cons, ih, h]

theorem spawnEnemy_frame (rng : ℕ → ℚ) (now delta : ℚ) (g : GameLogic) (k : ℕ) :
    (spawnEnemy rng now delta g k).1.store.lives = g.store.lives ∧
    (spawnEnemy rng now delta g k).1.store.gameOver = g.store.gameOver ∧
    (spawnEnemy rng now delta g k).1.store.playerPosition = g.store.playerPosition ∧
    (spawnEnemy rng now delta g k).1.store.score = g.store.score ∧
    (spawnEnemy rng now delta g k).1.store.explosions = g.store.explosions := by
  by_cases h : 2 ≤ g.enemySpawnTimer + delta <;> simp [spawnEnemy, addEnemy, h]

theorem spawnPowerUp_frame (rng : ℕ → ℚ) (delta : ℚ) (g : GameLogic) (k : ℕ) :
    (spawnPowerUp rng delta g k).1.store.lives = g.store.lives ∧
    (spawnPowerUp rng delta g k).1.store.gameOver = g.store.gameOver ∧
    (spawnPowerUp rng delta g k).1.store.playerPosition = g.store.playerPosition ∧
    (spawnPowerUp rng delta g k).1.store.score = g.store.score ∧
    (spawnPowerUp rng delta g k).1.store.explosions = g.store.explosions := by
  by_cases h : 10 ≤ g.powerUpSpawnTimer + delta <;> simp [spawnPowerUp, addPowerUp, h]

theorem spawnCollectible_frame (rng : ℕ → ℚ) (now delta : ℚ) (g : GameLogic) (k : ℕ) :
    (spawnCollectible rng now delta g k).1.store.lives = g.store.lives ∧
    (spawnCollectible rng now delta g k).1.store.gameOver = g.store.gameOver ∧
    (spawnCollectible rng now delta g k).1.store.playerPosition = g.store.playerPosition ∧
    (spawnCollectible rng now delta g k).1.store.score = g.store.score ∧
    (spawnCollectible rng now delta g k).1.store.explosions = g.store.explosions := by
  by_cases h : 5 ≤ g.collectibleSpawnTimer + delta <;>
    simp [spawnCollectible, addCollectible, h]

/-- The snapshot keeps lives, flag, player position and explosions of the frame start, and
its score is the start score plus `delta * 20`. -/
theorem snapshot_frame (rng : ℕ → ℚ) (now delta : ℚ) (g : GameLogic) :
    (snapshot rng now delta g).lives = g.store.lives ∧
    (snapshot rng now delta g).gameOver = g.store.gameOver ∧
    (snapshot rng now delta g).playerPosition = g.store.playerPosition ∧
    (snapshot rng now delta g).score = g.store.score + delta * 20 ∧
    (snapshot rng now delta g).explosions = g.store.explosions := by
  unfold snapshot spawnPhase
  simp only []
  obtain ⟨a1, a2, a3, a4, a5⟩ := spawnCollectible_frame rng now delta
    (spawnPowerUp rng delta
      (spawnEnemy rng now delta { g with store := setScore (delta * 20) g.store } 0).1
      (spawnEnemy rng now delta { g with store := setScore (delta * 20) g.store } 0).2).1
    (spawnPowerUp rng delta
      (spawnEnemy rng now delta { g with store := setScore (delta * 20) g.store } 0).1
      (spawnEnemy rng now delta { g with store := setScore (delta * 20) g.store } 0).2).2
  obtain ⟨b1, b2, b3, b4, b5⟩ := spawnPowerUp_frame rng delta
    (spawnEnemy rng now delta { g with store := setScore (delta * 20) g.store } 0).1
    (spawnEnemy rng now delta { g with store := setScore (delta * 20) g.store } 0).2
  obtain ⟨c1, c2, c3, c4, c5⟩ := spawnEnemy_frame rng now delta
    { g with store := setScore (delta * 20) g.store } 0
  rw [a1, a2, a3, a4, a5, b1, b2, b3, b4, b5, c1, c2, c3, c4, c5]
  simp [setScore]

theorem bulletHit_frame (now : ℚ) (e : Enemy) (i : ℕ) (st : Store) (ib : ℕ × Bullet) :
    (bulletHit now e i st ib).lives = st.lives ∧
    (bulletHit now e i st ib).gameOver = st.gameOver := by
  unfold bulletHit
  split <;> simp [setScore, addExplosion, removeBullet, removeEnemy]

theorem enemyScan_frame (now : ℚ) (snap : Store) :
    (enemyScan now snap).1.lives = snap.lives ∧
    (enemyScan now snap).1.gameOver = snap.gameOver := by
  have h := foldl_frame (enemyScanStep snap.playerPosition snap.bullets now)
    (fun acc : Store × List ℕ => (acc.1.lives, acc.1.gameOver))
    (fun b a => by
      have h2 := foldl_frame (bulletHit now a.2 a.1)
        (fun st : Store => (st.lives, st.gameOver))
        (fun st ib => by
          obtain ⟨h3, h4⟩ := bulletHit_frame now a.2 a.1 st ib
          simp only [h3, h4])
        snap.bullets.enum b.1
      simpa [enemyScanStep] using h2)
    snap.enemies.enum (snap, [])
  simp only [Prod.mk.injEq] at h
  exact h

/-- The array `playerCollisions` built by the scan is `collidingIndices`. -/
theorem enemyScan_snd (now : ℚ) (snap : Store) :
    (enemyScan now snap).2 = collidingIndices snap := by
  have key : ∀ (l : List (ℕ × Enemy)) (acc : Store × List ℕ),
      (l.foldl (enemyScanStep snap.playerPosition snap.bullets now) acc).2 =
        acc.2 ++ (l.filter (fun ie => overlaps ie.2.position snap.playerPosition)).map
          Prod.fst := by
    intro l
    induction l with
    | nil => intro acc; simp
    | cons a l ih =>
      intro acc
      rw [List.foldl_cons, ih]
      by_cases h : overlaps a.2.position snap.playerPosition = true
      · simp [enemyScanStep, List.filter_cons, h]
      · simp [enemyScanStep, List.filter_cons, h]
  unfold enemyScan collidingIndices
  rw [key]
  simp

/-- The scan registers as many collisions as there are snapshot enemies passing the box
test against the player. -/
theorem collidingIndices_length (snap : Store) :
    (collidingIndices snap).length =
      snap.enemies.countP (fun e => overlaps e.position snap.playerPosition) := by
  unfold collidingIndices
  rw [List.length_map, ← List.countP_eq_length_filter]
  conv_rhs => rw [← List.enum_map_snd snap.enemies]
  rw [List.countP_map]
  rfl

theorem foldl_removeEnemy_frame (l : List ℕ) (st : Store) :
    (l.foldl (fun s index => removeEnemy index s) st).lives = st.lives ∧
    (l.foldl (fun s index => removeEnemy index s) st).gameOver = st.gameOver ∧
    (l.foldl (fun s index => removeEnemy index s) st).score = st.score ∧
    (l.foldl (fun s index => removeEnemy index s) st).explosions = st.explosions ∧
    (l.foldl (fun s index => removeEnemy index s) st).collectibles = st.collectibles ∧
    (l.foldl (fun s index => removeEnemy index s) st).powerUps = st.powerUps ∧
    (l.foldl (fun s index => removeEnemy index s) st).bullets = st.bullets := by
  induction l generalizing st with
  | nil => simp
  | cons a l ih =>
    rw [List.foldl_cons]
    obtain ⟨h1, h2, h3, h4, h5, h6, h7⟩ := ih (removeEnemy a st)
    rw [h1, h2, h3, h4, h5, h6, h7]
    simp [removeEnemy]

/-- Lives and flag after lines 418-424. -/
theorem resolvePlayerCollisions_lives (pc : List ℕ) (st : Store) :
    (resolvePlayerCollisions pc st).lives =
      (if 0 < pc.length then max 0 (st.lives - pc.length) else st.lives) ∧
    (resolvePlayerCollisions pc st).gameOver =
      (if 0 < pc.length ∧ st.lives - (pc.length : ℤ) ≤ 0 then true else st.gameOver) := by
  unfold resolvePlayerCollisions
  obtain ⟨h1, h2, -⟩ :=
    foldl_removeEnemy_frame (pc.insertionSort (fun a b => b ≤ a)) st
  by_cases hp : 0 < pc.length
  · by_cases hn : st.lives - (pc.length : ℤ) ≤ 0
    · simp [hp, hn, h1, h2, setLives, setGameOver]
    · simp [hp, hn, h1, h2, setLives, setGameOver]
  · simp [hp]

theorem powerUpScan_frame (now : ℚ) (snap st : Store) :
    (powerUpScan now snap st).lives = st.lives ∧
    (powerUpScan now snap st).gameOver = st.gameOver ∧
    (powerUpScan now snap st).score = st.score ∧
    (powerUpScan now snap st).explosions = st.explosions ∧
    (powerUpScan now snap st).collectibles = st.collectibles ∧
    (powerUpScan now snap st).enemies = st.enemies := by
  have h := foldl_frame (powerUpStep snap.playerPosition now)
    (fun s : Store => (s.lives, s.gameOver, s.score, s.explosions, s.collectibles, s.enemies))
    (fun b a => by
      unfold powerUpStep
      split <;> simp [activatePowerUp, removePowerUp])
    snap.powerUps.enum st
  simp only [Prod.mk.injEq] at h
  exact h

theorem collectibleScan_frame (M : MathFns) (snap st : Store) :
    (collectibleScan M snap st).lives = st.lives ∧
    (collectibleScan M snap st).gameOver = st.gameOver ∧
    (collectibleScan M snap st).explosions = st.explosions ∧
    (collectibleScan M snap st).enemies = st.enemies := by
  have h := foldl_frame (collectibleStep M snap.playerPosition)
    (fun s : Store => (s.lives, s.gameOver, s.explosions, s.enemies))
    (fun b a => by
      unfold collectibleStep
      split <;> simp [setScore, removeCollectible])
    snap.collectibles.enum st
  simp only [Prod.mk.injEq] at h
  exact h

/-- Lives and flag after a frame that runs, in terms of the snapshot. -/
theorem gameLogicTick_lives (M : MathFns) (rng : ℕ → ℚ) (now delta : ℚ) (g : GameLogic)
    (hgo : g.store.gameOver = false) :
    (gameLogicTick M rng now delta g).store.lives =
      (if 0 < (collidingIndices (snapshot rng now delta g)).length then
        max 0 (g.store.lives - (collidingIndices (snapshot rng now delta g)).length)
      else g.store.lives) ∧
    (gameLogicTick M rng now delta g).store.gameOver =
      (if 0 < (collidingIndices (snapshot rng now delta g)).length ∧
          g.store.lives - ((collidingIndices (snapshot rng now delta g)).length : ℤ) ≤ 0
        then true else false) := by
  obtain ⟨s1, s2, -⟩ := snapshot_frame rng now delta g
  have e : (gameLogicTick M rng now delta g).store =
      movement M now delta (collisionPhase M now (snapshot rng now delta g)) := by
    simp [gameLogicTick, hgo, snapshot]
  rw [e]
  have m1 : ∀ st : Store, (movement M now delta st).lives = st.lives ∧
      (movement M now delta st).gameOver = st.gameOver := fun st => ⟨rfl, rfl⟩
  rw [(m1 _).1, (m1 _).2]
  unfold collisionPhase
  simp only []
  obtain ⟨c1, c2, -⟩ := collectibleScan_frame M (snapshot rng now delta g)
    (powerUpScan now (snapshot rng now delta g)
      (resolvePlayerCollisions (enemyScan now (snapshot rng now delta g)).2
        (enemyScan now (snapshot rng now delta g)).1))
  obtain ⟨p1, p2, -⟩ := powerUpScan_frame now (snapshot rng now delta g)
    (resolvePlayerCollisions (enemyScan now (snapshot rng now delta g)).2
      (enemyScan now (snapshot rng now delta g)).1)
  obtain ⟨r1, r2⟩ := resolvePlayerCollisions_lives (enemyScan now (snapshot rng now delta g)).2
    (enemyScan now (snapshot rng now delta g)).1
  obtain ⟨e1, e2⟩ := enemyScan_frame now (snapshot rng now delta g)
  rw [c1, c2, p1, p2, r1, r2, e1, e2, enemyScan_snd, s1, s2, hgo]
  exact ⟨rfl, rfl⟩

/-- The snapshot holds the enemies of the frame start, followed by the enemy spawned in
this frame, if any; a spawned enemy is at height 10. -/
theorem snapshot_enemies (rng : ℕ → ℚ) (now delta : ℚ) (g : GameLogic) :
    (snapshot rng now delta g).enemies = g.store.enemies ∨
    ∃ e : Enemy, e.position.y = 10 ∧
      (snapshot rng now delta g).enemies = g.store.enemies ++ [e] := by
  have hp : ∀ (g1 : GameLogic) (k : ℕ),
      (spawnPowerUp rng delta g1 k).1.store.enemies = g1.store.enemies := by
    intro g1 k
    by_cases h : 10 ≤ g1.powerUpSpawnTimer + delta <;> simp [spawnPowerUp, addPowerUp, h]
  have hc : ∀ (g1 : GameLogic) (k : ℕ),
      (spawnCollectible rng now delta g1 k).1.store.enemies = g1.store.enemies := by
    intro g1 k
    by_cases h : 5 ≤ g1.collectibleSpawnTimer + delta <;>
      simp [spawnCollectible, addCollectible, h]
  unfold snapshot spawnPhase
  simp only []
  rw [hc, hp]
  by_cases h : 2 ≤ g.enemySpawnTimer + delta
  · right
    simp only [spawnEnemy, h, if_true, addEnemy, setScore]
    exact ⟨_, rfl, rfl⟩
  · left
    simp [spawnEnemy, h, setScore]

/-- With the player at height at most 8, the enemy spawned in a frame never passes the box
test, so the snapshot and the frame-start store count the same colliding enemies. -/
theorem snapshot_colliding_count (rng : ℕ → ℚ) (now delta : ℚ) (g : GameLogic)
    (hy : g.store.playerPosition.y ≤ 8) :
    (snapshot rng now delta g).enemies.countP
        (fun e => overlaps e.position (snapshot rng now delta g).playerPosition) =
      g.store.enemies.countP (fun e => overlaps e.position g.store.playerPosition) := by
  obtain ⟨-, -, hpos, -⟩ := snapshot_frame rng now delta g
  rw [hpos]
  rcases snapshot_enemies rng now delta g with h | ⟨e, he, h⟩
  · rw [h]
  · rw [h, List.countP_append]
    have : overlaps e.position g.store.playerPosition = false := by
      unfold overlaps
      rw [he]
      have h2 : ¬ |(10 : ℚ) - g.store.playerPosition.y| < 6 / 10 := by
        rw [abs_lt]
        intro hh
        linarith [hh.2]
      simp [h2]
    simp [List.countP_cons, this]

/-! ## Score and explosions of a frame -/

theorem foldl_bulletHit_score (now : ℚ) (e : Enemy) (i : ℕ) (lb : List (ℕ × Bullet))
    (st : Store) :
    (lb.foldl (bulletHit now e i) st).score =
      st.score + 100 * ((lb.filter (fun ib => overlaps e.position ib.2.position)).length : ℚ) ∧
    (lb.foldl (bulletHit now e i) st).explosions =
      st.explosions ++ (lb.filter (fun ib => overlaps e.position ib.2.position)).map
        (fun _ => ({ position := e.position, time := now } : Explosion)) := by
  induction lb generalizing st with
  | nil => simp
  | cons a lb ih =>
    rw [List.foldl_cons]
    obtain ⟨h1, h2⟩ := ih (bulletHit now e i st a)
    rw [h1, h2]
    by_cases h : overlaps e.position a.2.position = true
    · simp [bulletHit, h, List.filter_cons, setScore, addExplosion, removeBullet, removeEnemy]
      ring
    · simp [bulletHit, h, List.filter_cons]

theorem foldl_enemyScanStep_score (now : ℚ) (player : Vec3) (bullets : List Bullet)
    (le : List (ℕ × Enemy)) (acc : Store × List ℕ) :
    (le.foldl (enemyScanStep player bullets now) acc).1.score =
      acc.1.score + 100 * ((le.flatMap (fun ie =>
        (bullets.filter (fun b => overlaps ie.2.position b.position)).map
          (fun _ => ie.2))).length : ℚ) ∧
    (le.foldl (enemyScanStep player bullets now) acc).1.explosions =
      acc.1.explosions ++ (le.flatMap (fun ie =>
        (bullets.filter (fun b => overlaps ie.2.position b.position)).map
          (fun _ => ie.2))).map
        (fun e => ({ position := e.position, time := now } : Explosion)) := by
  have hf : ∀ e : Enemy, (bullets.enum.filter (fun ib => overlaps e.position ib.2.position)).map
      Prod.snd = bullets.filter (fun b => overlaps e.position b.position) := by
    intro e
    conv_rhs => rw [← List.enum_map_snd bullets]
    rw [List.filter_map]
    rfl
  induction le generalizing acc with
  | nil => simp
  | cons a le ih =>
    rw [List.foldl_cons]
    obtain ⟨h1, h2⟩ := ih (enemyScanStep player bullets now acc a)
    obtain ⟨b1, b2⟩ := foldl_bulletHit_score now a.2 a.1 bullets.enum acc.1
    have hl : (bullets.enum.filter (fun ib => overlaps a.2.position ib.2.position)).length =
        (bullets.filter (fun b => overlaps a.2.position b.position)).length := by
      rw [← hf a.2, List.length_map]
    rw [h1, h2]
    constructor
    · simp only [enemyScanStep, b1, hl, List.flatMap_cons, List.length_append, List.length_map]
      push_cast
      ring
    · simp only [enemyScanStep, b2, List.flatMap_cons, List.map_append, List.map_map,
        List.append_assoc]
      congr 2
      rw [← hf a.2, List.map_map]
      rfl

/-- Score and explosions after the enemy scan. -/
theorem enemyScan_score (now : ℚ) (snap : Store) :
    (enemyScan now snap).1.score = snap.score + 100 * ((bulletHits snap).length : ℚ) ∧
    (enemyScan now snap).1.explosions =
      snap.explosions ++ (bulletHits snap).map
        (fun e => ({ position := e.position, time := now } : Explosion)) := by
  have hb : (snap.enemies.enum.flatMap (fun ie =>
      (snap.bullets.filter (fun b => overlaps ie.2.position b.position)).map
        (fun _ => ie.2))) = bulletHits snap := by
    unfold bulletHits
    conv_rhs => rw [← List.enum_map_snd snap.enemies]
    rw [List.flatMap_map]
  have h := foldl_enemyScanStep_score now snap.playerPosition snap.bullets snap.enemies.enum
    (snap, [])
  rw [hb] at h
  exact h

theorem resolvePlayerCollisions_frame (pc : List ℕ) (st : Store) :
    (resolvePlayerCollisions pc st).score = st.score ∧
    (resolvePlayerCollisions pc st).explosions = st.explosions ∧
    (resolvePlayerCollisions pc st).collectibles = st.collectibles ∧
    (resolvePlayerCollisions pc st).powerUps = st.powerUps ∧
    (resolvePlayerCollisions pc st).bullets = st.bullets := by
  unfold resolvePlayerCollisions
  obtain ⟨-, -, h3, h4, h5, h6, h7⟩ :=
    foldl_removeEnemy_frame (pc.insertionSort (fun a b => b ≤ a)) st
  by_cases hp : 0 < pc.length
  · simp only [hp, if_true]
    split <;> simp [setLives, setGameOver, h3, h4, h5, h6, h7]
  · simp [hp]

theorem foldl_collectibleStep_score (M : MathFns) (player : Vec3)
    (lc : List (ℕ × Collectible)) (st : Store) :
    (lc.foldl (collectibleStep M player) st).score =
      st.score + (((lc.filter (fun ic => inPickupRange M player ic.2)).map Prod.snd).map
        collectiblePoints).sum := by
  induction lc generalizing st with
  | nil => simp
  | cons a lc ih =>
    rw [List.foldl_cons, ih]
    by_cases h : inPickupRange M player a.2 = true
    · simp [collectibleStep, h, List.filter_cons, setScore, removeCollectible]
      ring
    · simp [collectibleStep, h, List.filter_cons]

/-- Score after the collectible scan. -/
theorem collectibleScan_score (M : MathFns) (snap st : Store) :
    (collectibleScan M snap st).score =
      st.score + ((pickedUp M snap).map collectiblePoints).sum := by
  unfold collectibleScan pickedUp
  rw [foldl_collectibleStep_score]
  congr 3
  conv_rhs => rw [← List.enum_map_snd snap.collectibles]
  rw [List.filter_map]
  rfl

/-- The store of a frame that runs. -/
theorem gameLogicTick_store (M : MathFns) (rng : ℕ → ℚ) (now delta : ℚ) (g : GameLogic)
    (hgo : g.store.gameOver = false) :
    (gameLogicTick M rng now delta g).store =
      movement M now delta (collisionPhase M now (snapshot rng now delta g)) := by
  simp [gameLogicTick, hgo, snapshot]

/-- Score after a frame that runs: the accrual `delta * 20`, 100 per bullet hit, and the
points of the collectibles in range. -/
theorem gameLogicTick_score (M : MathFns) (rng : ℕ → ℚ) (now delta : ℚ) (g : GameLogic)
    (hgo : g.store.gameOver = false) :
    (gameLogicTick M rng now delta g).store.score =
      g.store.score + delta * 20 +
        100 * ((bulletHits (snapshot rng now delta g)).length : ℚ) +
        ((pickedUp M (snapshot rng now delta g)).map collectiblePoints).sum := by
  rw [gameLogicTick_store M rng now delta g hgo]
  have m1 : ∀ st : Store, (movement M now delta st).score = st.score := fun st => rfl
  rw [m1]
  unfold collisionPhase
  simp only []
  rw [collectibleScan_score, (powerUpScan_frame _ _ _).2.2.1,
    (resolvePlayerCollisions_frame _ _).1, (enemyScan_score _ _).1,
    (snapshot_frame rng now delta g).2.2.2.1]

/-- Explosions after a frame that runs: the unexpired old ones, then one per bullet hit. -/
theorem gameLogicTick_explosions (M : MathFns) (rng : ℕ → ℚ) (now delta : ℚ) (g : GameLogic)
    (hgo : g.store.gameOver = false) :
    (gameLogicTick M rng now delta g).store.explosions =
      g.store.explosions.filter (fun e => decide (now - e.time < 5)) ++
        (bulletHits (snapshot rng now delta g)).map
          (fun e => ({ position := e.position, time := now } : Explosion)) := by
  rw [gameLogicTick_store M rng now delta g hgo]
  have m1 : ∀ st : Store, (movement M now delta st).explosions =
      st.explosions.filter (fun e => decide (now - e.time < 5)) := fun st => rfl
  rw [m1]
  unfold collisionPhase
  simp only []
  rw [(collectibleScan_frame _ _ _).2.2.1, (powerUpScan_frame _ _ _).2.2.2.1,
    (resolvePlayerCollisions_frame _ _).2.1, (enemyScan_score _ _).2,
    (snapshot_frame rng now delta g).2.2.2.2, List.filter_append]
  congr 1
  rw [List.filter_eq_self]
  intro a ha
  rw [List.mem_map] at ha
  obtain ⟨e, -, rfl⟩ := ha
  simp

/-- The snapshot holds the collectibles of the frame start, followed by the collectible
spawned in this frame, if any; its size is `0.3 + Math.random() * 0.7`. -/
theorem snapshot_collectibles (rng : ℕ → ℚ) (now delta : ℚ) (g : GameLogic) :
    (snapshot rng now delta g).collectibles = g.store.collectibles ∨
    ∃ (c : Collectible) (k : ℕ), c.size = 3 / 10 + rng k * (7 / 10) ∧
      (snapshot rng now delta g).collectibles = g.store.collectibles ++ [c] := by
  have he : ∀ (g1 : GameLogic) (k : ℕ),
      (spawnEnemy rng now delta g1 k).1.store.collectibles = g1.store.collectibles := by
    intro g1 k
    by_cases h : 2 ≤ g1.enemySpawnTimer + delta <;> simp [spawnEnemy, addEnemy, h]
  have hp : ∀ (g1 : GameLogic) (k : ℕ),
      (spawnPowerUp rng delta g1 k).1.store.collectibles = g1.store.collectibles := by
    intro g1 k
    by_cases h : 10 ≤ g1.powerUpSpawnTimer + delta <;> simp [spawnPowerUp, addPowerUp, h]
  have hc : ∀ (g1 : GameLogic) (k : ℕ),
      (spawnCollectible rng now delta g1 k).1.store.collectibles = g1.store.collectibles ∨
      ∃ (c : Collectible) (j : ℕ), c.size = 3 / 10 + rng j * (7 / 10) ∧
        (spawnCollectible rng now delta g1 k).1.store.collectibles =
          g1.store.collectibles ++ [c] := by
    intro g1 k
    by_cases h : 5 ≤ g1.collectibleSpawnTimer + delta
    · right
      simp only [spawnCollectible, h, if_true, addCollectible]
      exact ⟨{ position := ⟨rng k * 16 - 8, 10, 0⟩, velocity := ⟨0, -2, 0⟩,
               size := 3 / 10 + rng (k + 1) * (7 / 10), spawnTime := now }, k + 1, rfl, rfl⟩
    · left
      simp [spawnCollectible, h]
  unfold snapshot spawnPhase
  simp only []
  have h := hc
    (spawnPowerUp rng delta
      (spawnEnemy rng now delta { g with store := setScore (delta * 20) g.store } 0).1
      (spawnEnemy rng now delta { g with store := setScore (delta * 20) g.store } 0).2).1
    (spawnPowerUp rng delta
      (spawnEnemy rng now delta { g with store := setScore (delta * 20) g.store } 0).1
      (spawnEnemy rng now delta { g with store := setScore (delta * 20) g.store } 0).2).2
  rw [hp, he] at h
  exact h

/-- A collectible of non-negative size is worth a non-negative number of points. -/
theorem collectiblePoints_nonneg (c : Collectible) (h : 0 ≤ c.size) :
    0 ≤ collectiblePoints c := by
  unfold collectiblePoints
  have : (0 : ℤ) ≤ ⌊c.size * 100⌋ := Int.floor_nonneg.mpr (by positivity)
  exact_mod_cast this

/-! ## The player update -/

/-- Position and velocity written to the store by a player update that runs. -/
theorem playerFrame_store (M : MathFns) (keys : Keys) (now delta : ℚ) (p : Player)
    (mesh : PlayerMesh) (hm : p.mesh = some mesh) (hgo : p.store.gameOver = false) :
    (playerFrame M keys now delta p).store.playerPosition =
      ⟨max (-8) (min 8 (mesh.position.x +
          (newVelocity M keys delta p.store.playerVelocity p.store.activePowerUps).1 * delta)),
        max (-8) (min 8 (mesh.position.y +
          (newVelocity M keys delta p.store.playerVelocity p.store.activePowerUps).2 * delta)),
        0⟩ ∧
    (playerFrame M keys now delta p).store.playerVelocity =
      ⟨(newVelocity M keys delta p.store.playerVelocity p.store.activePowerUps).1,
        (newVelocity M keys delta p.store.playerVelocity p.store.activePowerUps).2, 0⟩ := by
  unfold playerFrame
  rw [hm]
  simp only [hgo, Bool.false_eq_true, if_false]
  split
  · unfold fire
    split <;> exact ⟨rfl, rfl⟩
  · exact ⟨rfl, rfl⟩

/-- A player update touches neither the lives nor the game-over flag. -/
theorem playerFrame_frame (M : MathFns) (keys : Keys) (now delta : ℚ) (p : Player) :
    (playerFrame M keys now delta p).store.lives = p.store.lives ∧
    (playerFrame M keys now delta p).store.gameOver = p.store.gameOver := by
  rcases hm : p.mesh with _ | mesh
  · simp [playerFrame, hm]
  · by_cases hg : p.store.gameOver = true
    · simp [playerFrame, hm, hg]
    · have hg' : p.store.gameOver = false := by simpa using hg
      unfold playerFrame
      rw [hm]
      simp only [hg', Bool.false_eq_true, if_false]
      split
      · unfold fire
        split <;> simp [addBullet]
      · simp

/-- From rest and holding only `up` with `delta = 0.1`, the stored velocity is `(0, 3, 0)`
after one update and `(0, 6, 0)` after two. -/
theorem hold_up_scenario :
    (playerFrame evalMath upKey (1 / 10) (1 / 10) restingPlayer).store.playerVelocity =
      ⟨0, 3, 0⟩ ∧
    (playerFrame evalMath upKey (2 / 10) (1 / 10)
      (playerFrame evalMath upKey (1 / 10) (1 / 10) restingPlayer)).store.playerVelocity =
      ⟨0, 6, 0⟩ := by
  decide!

/-! ## The lives invariant of a run -/

/-- In every state of a run the lives are between 0 and 3 and `gameOver` is set exactly
when they are 0. -/
theorem reachable_lives (s : Store) (h : Reachable s) :
    0 ≤ s.lives ∧ s.lives ≤ 3 ∧ (s.gameOver = true ↔ s.lives = 0) := by
  induction h with
  | initial => simp [initialStore]
  | start s _ _ => simp [startGame]
  | tick M rng now delta g _ ih =>
    by_cases hgo : g.store.gameOver = true
    · simpa [gameLogicTick, hgo] using ih
    · have hgo' : g.store.gameOver = false := by simpa using hgo
      obtain ⟨h1, h2⟩ := gameLogicTick_lives M rng now delta g hgo'
      obtain ⟨i1, i2, i3⟩ := ih
      have hpos : 0 < g.store.lives := by
        rcases lt_or_eq_of_le i1 with h | h
        · exact h
        · exact absurd (i3.mpr h.symm) hgo
      rw [h1, h2]
      generalize (collidingIndices (snapshot rng now delta g)).length = c
      by_cases hc : 0 < c
      · have hc' : (0 : ℤ) < (c : ℤ) := by exact_mod_cast hc
        by_cases h3 : g.store.lives - (c : ℤ) ≤ 0
        · simp only [hc, h3, and_self, if_true, true_iff]
          refine ⟨le_max_left _ _, ?_, ?_⟩
          · exact max_le (by norm_num) (by omega)
          · exact max_eq_left h3
        · simp only [hc, h3, and_false, if_true, if_false, Bool.false_eq_true, false_iff]
          have h4 : max 0 (g.store.lives - (c : ℤ)) = g.store.lives - (c : ℤ) :=
            max_eq_right (by omega)
          rw [h4]
          omega
      · simp only [hc, false_and, if_false, Bool.false_eq_true, false_iff]
        omega
  | player M keys now delta p _ ih =>
    obtain ⟨h1, h2⟩ := playerFrame_frame M keys now delta p
    rw [h1, h2]
    exact ih

/-- A state of a run with `gameOver = false` has at least one life. -/
theorem reachable_lives_pos (s : Store) (h : Reachable s) (hgo : s.gameOver = false) :
    0 < s.lives := by
  obtain ⟨h1, -, h3⟩ := reachable_lives s h
  rcases lt_or_eq_of_le h1 with h | h
  · exact h
  · rw [h3.mpr h.symm] at hgo
    exact absurd hgo (by decide)

/-- A frame of `GameLogic` keeps the lives between 0 and 3 and `gameOver` set exactly when
they are 0. -/
theorem gameLogicTick_keeps_lives_invariant (M : MathFns) (rng : ℕ → ℚ) (now delta : ℚ)
    (g : GameLogic)
    (ih : 0 ≤ g.store.lives ∧ g.store.lives ≤ 3 ∧
      (g.store.gameOver = true ↔ g.store.lives = 0)) :
    0 ≤ (gameLogicTick M rng now delta g).store.lives ∧
    (gameLogicTick M rng now delta g).store.lives ≤ 3 ∧
    ((gameLogicTick M rng now delta g).store.gameOver = true ↔
      (gameLogicTick M rng now delta g).store.lives = 0) := by
  by_cases hgo : g.store.gameOver = true
  · simpa [gameLogicTick, hgo] using ih
  · have hgo' : g.store.gameOver = false := by simpa using hgo
    obtain ⟨h1, h2⟩ := gameLogicTick_lives M rng now delta g hgo'
    obtain ⟨i1, i2, i3⟩ := ih
    have hpos : 0 < g.store.lives := by
      rcases lt_or_eq_of_le i1 with h | h
      · exact h
      · exact absurd (i3.mpr h.symm) hgo
    rw [h1, h2]
    generalize (collidingIndices (snapshot rng now delta g)).length = c
    by_cases hc : 0 < c
    · by_cases h3 : g.store.lives - (c : ℤ) ≤ 0
      · simp only [hc, h3, and_self, if_true, true_iff]
        exact ⟨le_max_left _ _, max_le (by norm_num) (by omega), max_eq_left h3⟩
      · simp only [hc, h3, and_false, if_true, if_false, Bool.false_eq_true, false_iff]
        rw [max_eq_right (by omega)]
        omega
    · simp only [hc, false_and, if_false, Bool.false_eq_true, false_iff]
      omega

/-! ## Removal by index in descending order -/

theorem keepIndices_nil {α : Type} (n : ℕ) (q : ℕ → Bool) :
    keepIndices n q ([] : List α) = [] := rfl

theorem keepIndices_cons {α : Type} (n : ℕ) (q : ℕ → Bool) (x : α) (xs : List α) :
    keepIndices n q (x :: xs) =
      if q n then x :: keepIndices (n + 1) q xs else keepIndices (n + 1) q xs := by
  unfold keepIndices
  by_cases h : q n = true <;> simp [List.enumFrom, List.filter_cons, h]

/-- The filter of `removeAt` keeps the positions different from `index`. -/
theorem removeAt_eq_keepIndices {α : Type} (xs : List α) (index : ℕ) :
    removeAt xs index = keepIndices 0 (fun i => i != index) xs := rfl

theorem keepIndices_of_all {α : Type} (q : ℕ → Bool) (xs : List α) (n : ℕ)
    (h : ∀ m, n ≤ m → q m = true) : keepIndices n q xs = xs := by
  induction xs generalizing n with
  | nil => rfl
  | cons x xs ih =>
    rw [keepIndices_cons, h n (le_refl n), if_pos rfl,
      ih (n + 1) (fun m hm => h m (by omega))]

theorem keepIndices_congr {α : Type} (q1 q2 : ℕ → Bool) (xs : List α) (n : ℕ)
    (h : ∀ m, n ≤ m → m < n + xs.length → q1 m = q2 m) :
    keepIndices n q1 xs = keepIndices n q2 xs := by
  induction xs generalizing n with
  | nil => rfl
  | cons x xs ih =>
    rw [keepIndices_cons, keepIndices_cons, h n (le_refl n) (by simp),
      ih (n + 1) (fun m h1 h2 => h m (by omega) (by simp only [List.length_cons]; omega))]

/-- Removing position `a` and then the positions in `l`, all smaller than `a`, keeps the
positions outside `a :: l`. -/
theorem keepIndices_after_remove {α : Type} (a : ℕ) (l : List ℕ) (hl : ∀ i ∈ l, i < a)
    (xs : List α) (n : ℕ) :
    keepIndices n (fun i => decide (i ∉ l)) (keepIndices n (fun i => i != a) xs) =
      keepIndices n (fun i => decide (i ∉ a :: l)) xs := by
  induction xs generalizing n with
  | nil => rfl
  | cons x xs ih =>
    by_cases hn : n = a
    · subst hn
      have e1 : keepIndices n (fun i => i != n) (x :: xs) = xs := by
        rw [keepIndices_cons]
        simp only [bne_self_eq_false, Bool.false_eq_true, if_false]
        exact keepIndices_of_all _ xs (n + 1) (fun m hm => by simp; omega)
      have e2 : keepIndices n (fun i => decide (i ∉ l)) xs = xs :=
        keepIndices_of_all _ xs n (fun m hm => by
          simp only [decide_eq_true_eq]
          intro hmem
          have := hl m hmem
          omega)
      have e3 : keepIndices n (fun i => decide (i ∉ n :: l)) (x :: xs) = xs := by
        rw [keepIndices_cons]
        simp only [List.mem_cons, true_or, not_true_eq_false, decide_False,
          Bool.false_eq_true, if_false]
        exact keepIndices_of_all _ xs (n + 1) (fun m hm => by
          simp only [List.mem_cons, not_or, decide_eq_true_eq]
          refine ⟨by omega, ?_⟩
          intro hmem
          have := hl m hmem
          omega)
      rw [e1, e2, e3]
    · have hne : (n != a) = true := by simpa using hn
      rw [keepIndices_cons (q := fun i => i != a)]
      simp only [hne, if_true]
      rw [keepIndices_cons, keepIndices_cons, ih (n + 1)]
      have : decide (n ∉ a :: l) = decide (n ∉ l) := by
        simp [hn]
      rw [this]

/-- Removing the positions of a strictly decreasing list one at a time keeps the positions
outside the list. -/
theorem foldl_removeAt_descending {α : Type} (l : List ℕ)
    (hl : l.Pairwise (fun a b => b < a)) (xs : List α) :
    l.foldl removeAt xs = keepIndices 0 (fun i => decide (i ∉ l)) xs := by
  induction l generalizing xs with
  | nil =>
    simp only [List.foldl_nil, List.not_mem_nil, not_false_eq_true, decide_True]
    exact (keepIndices_of_all _ xs 0 (fun _ _ => rfl)).symm
  | cons a l ih =>
    rw [List.pairwise_cons] at hl
    rw [List.foldl_cons, ih hl.2, removeAt_eq_keepIndices,
      keepIndices_after_remove a l hl.1 xs 0]

theorem foldl_removeEnemy_enemies (l : List ℕ) (st : Store) :
    (l.foldl (fun s index => removeEnemy index s) st).enemies = l.foldl removeAt st.enemies := by
  induction l generalizing st with
  | nil => rfl
  | cons a l ih =>
    rw [List.foldl_cons, List.foldl_cons, ih]
    rfl

/-- The indices registered by the scan are pairwise distinct. -/
theorem collidingIndices_nodup (snap : Store) : (collidingIndices snap).Nodup := by
  unfold collidingIndices
  have h1 : ((snap.enemies.enum.filter
      (fun ie => overlaps ie.2.position snap.playerPosition)).map Prod.fst).Sublist
      (snap.enemies.enum.map Prod.fst) := List.Sublist.map _ (List.filter_sublist _)
  rw [List.enum_map_fst] at h1
  exact List.Nodup.sublist h1 (List.nodup_range _)

/-- The comparator `(a, b) => b - a` sorts a list without repetition into strictly
decreasing order. -/
theorem insertionSort_descending (l : List ℕ) (hl : l.Nodup) :
    (l.insertionSort (fun a b => b ≤ a)).Pairwise (fun a b => b < a) := by
  have inst1 : IsTotal ℕ (fun a b => b ≤ a) := ⟨fun a b => le_total b a⟩
  have inst2 : IsTrans ℕ (fun a b => b ≤ a) := ⟨fun a b c h1 h2 => le_trans h2 h1⟩
  have h1 : (l.insertionSort (fun a b => b ≤ a)).Pairwise (fun a b => b ≤ a) :=
    List.sorted_insertionSort (fun a b => b ≤ a) l
  have h2 : (l.insertionSort (fun a b => b ≤ a)).Pairwise (fun a b => a ≠ b) :=
    (List.Perm.nodup_iff (List.perm_insertionSort (fun a b => b ≤ a) l)).mpr hl
  exact (h1.and h2).imp (fun h => lt_of_le_of_ne h.1 (Ne.symm h.2))

/-- Without a bullet hit the enemy scan leaves the store as it is. -/
theorem enemyScan_fst_of_no_hit (now : ℚ) (snap : Store)
    (hb : ∀ e ∈ snap.enemies, ∀ b ∈ snap.bullets, overlaps e.position b.position = false) :
    (enemyScan now snap).1 = snap := by
  have inner : ∀ (e : Enemy) (i : ℕ) (lb : List (ℕ × Bullet)) (st : Store),
      (∀ ib ∈ lb, overlaps e.position ib.2.position = false) →
      lb.foldl (bulletHit now e i) st = st := by
    intro e i lb
    induction lb with
    | nil => intro st _; rfl
    | cons a lb ih =>
      intro st h
      rw [List.foldl_cons]
      have ha : bulletHit now e i st a = st := by
        simp [bulletHit, h a (List.mem_cons_self _ _)]
      rw [ha]
      exact ih st (fun ib hib => h ib (List.mem_cons_of_mem _ hib))
  have outer : ∀ (le : List (ℕ × Enemy)) (acc : Store × List ℕ),
      (∀ ie ∈ le, ∀ b ∈ snap.bullets, overlaps ie.2.position b.position = false) →
      (le.foldl (enemyScanStep snap.playerPosition snap.bullets now) acc).1 = acc.1 := by
    intro le
    induction le with
    | nil => intro acc _; rfl
    | cons a le ih =>
      intro acc h
      rw [List.foldl_cons, ih _ (fun ie hie => h ie (List.mem_cons_of_mem _ hie))]
      simp only [enemyScanStep]
      exact inner a.2 a.1 snap.bullets.enum acc.1
        (fun ib hib => h a (List.mem_cons_self _ _) ib.2 (List.snd_mem_of_mem_enum hib))
  unfold enemyScan
  exact outer snap.enemies.enum (snap, [])
    (fun ie hie b hb2 => hb ie.2 (List.snd_mem_of_mem_enum hie) b hb2)

/-- Enemies after lines 418-424: the registered indices removed one at a time in the
sorted order. -/
theorem resolvePlayerCollisions_enemies (pc : List ℕ) (st : Store) :
    (resolvePlayerCollisions pc st).enemies =
      (pc.insertionSort (fun a b => b ≤ a)).foldl removeAt st.enemies := by
  rw [← foldl_removeEnemy_enemies]
  unfold resolvePlayerCollisions
  by_cases hp : 0 < pc.length
  · simp only [hp, if_true]
    split <;> rfl
  · have : pc = [] := List.length_eq_zero.mp (by omega)
    subst this
    rfl

/-- Keeping the positions outside `collidingIndices` keeps the enemies that fail the box
test against the player. -/
theorem keepIndices_collidingIndices (snap : Store) :
    keepIndices 0 (fun i => decide (i ∉ collidingIndices snap)) snap.enemies =
      snap.enemies.filter (fun e => !overlaps e.position snap.playerPosition) := by
  have hmem : ∀ ie ∈ snap.enemies.enum,
      (decide (ie.1 ∉ collidingIndices snap)) =
        !overlaps ie.2.position snap.playerPosition := by
    intro ie hie
    have hiff : ie.1 ∈ collidingIndices snap ↔
        overlaps ie.2.position snap.playerPosition = true := by
      unfold collidingIndices
      simp only [List.mem_map, List.mem_filter]
      constructor
      · rintro ⟨je, ⟨h1, h2⟩, h3⟩
        have e1 := List.mem_enum_iff_getElem?.mp h1
        have e2 := List.mem_enum_iff_getElem?.mp hie
        rw [h3] at e1
        rw [e1] at e2
        have : je.2 = ie.2 := Option.some.inj e2
        rw [← this]
        exact h2
      · intro h
        exact ⟨ie, ⟨hie, h⟩, rfl⟩
    by_cases h : overlaps ie.2.position snap.playerPosition = true
    · simp [hiff.mpr h, h]
    · have h' : ie.1 ∉ collidingIndices snap := fun hc => h (hiff.mp hc)
      simp [h', h]
  unfold keepIndices
  rw [← List.enum, List.filter_congr hmem]
  conv_rhs => rw [← List.enum_map_snd snap.enemies]
  rw [List.filter_map]
  rfl

/-- Removing the registered indices in the sorted order keeps the positions outside
`collidingIndices`. -/
theorem foldl_removeAt_collidingIndices (snap : Store) :
    ((collidingIndices snap).insertionSort (fun a b => b ≤ a)).foldl removeAt snap.enemies =
      keepIndices 0 (fun i => decide (i ∉ collidingIndices snap)) snap.enemies := by
  rw [foldl_removeAt_descending _
    (insertionSort_descending _ (collidingIndices_nodup snap))]
  apply keepIndices_congr
  intro m _ _
  have h := List.Perm.mem_iff
    (List.perm_insertionSort (fun a b => b ≤ a) (collidingIndices snap)) (a := m)
  by_cases hm : m ∈ collidingIndices snap
  · simp [hm, h.mpr hm]
  · simp [hm, fun hc => hm (h.mp hc)]

/-! ## The type of a spawned power-up -/

/-- When the power-up spawner fires, the type it stores is `powerUpTypeOf` of the second and
third `Math.random()` results of the spawn. -/
theorem spawnPowerUp_type (rng : ℕ → ℚ) (delta : ℚ) (g : GameLogic) (k : ℕ)
    (h : 10 ≤ g.powerUpSpawnTimer + delta) :
    (spawnPowerUp rng delta g k).1.store.powerUps = g.store.powerUps ++
      [{ position := ⟨rng k * 16 - 8, 10, 0⟩,
         type := powerUpTypeOf (rng (k + 1)) (rng (k + 2)), duration := 5 }] := by
  simp [spawnPowerUp, h, addPowerUp, powerUpTypeOf]

/-- The draws in the unit square for which the spawner picks `speed`. -/
theorem speed_draws :
    {p : ℝ × ℝ | p.1 ∈ Set.Ico (0 : ℝ) 1 ∧ p.2 ∈ Set.Ico (0 : ℝ) 1 ∧
        powerUpTypeOf p.1 p.2 = PowerUpType.speed} =
      Set.Ico (0 : ℝ) (33 / 100) ×ˢ Set.Ico (0 : ℝ) 1 := by
  ext ⟨a, b⟩
  simp only [Set.mem_setOf_eq, Set.mem_prod, Set.mem_Ico, powerUpTypeOf]
  constructor
  · rintro ⟨⟨h1, h2⟩, ⟨h3, h4⟩, h5⟩
    by_cases ha : a < 33 / 100
    · exact ⟨⟨h1, ha⟩, h3, h4⟩
    · by_cases hb : b < 66 / 100 <;> simp [ha, hb] at h5
  · rintro ⟨⟨h1, h2⟩, h3, h4⟩
    refine ⟨⟨h1, by linarith⟩, ⟨h3, h4⟩, ?_⟩
    simp [h2]

/-- The draws in the unit square for which the spawner picks `shield`. -/
theorem shield_draws :
    {p : ℝ × ℝ | p.1 ∈ Set.Ico (0 : ℝ) 1 ∧ p.2 ∈ Set.Ico (0 : ℝ) 1 ∧
        powerUpTypeOf p.1 p.2 = PowerUpType.shield} =
      Set.Ico (33 / 100 : ℝ) 1 ×ˢ Set.Ico (0 : ℝ) (66 / 100) := by
  ext ⟨a, b⟩
  simp only [Set.mem_setOf_eq, Set.mem_prod, Set.mem_Ico, powerUpTypeOf]
  constructor
  · rintro ⟨⟨h1, h2⟩, ⟨h3, h4⟩, h5⟩
    by_cases ha : a < 33 / 100
    · simp [ha] at h5
    · by_cases hb : b < 66 / 100
      · exact ⟨⟨not_lt.mp ha, h2⟩, h3, hb⟩
      · simp [ha, hb] at h5
  · rintro ⟨⟨h1, h2⟩, h3, h4⟩
    refine ⟨⟨by linarith, h2⟩, ⟨h3, by linarith⟩, ?_⟩
    simp [not_lt.mpr h1, h4]

/-- The draws in the unit square for which the spawner picks `multi-shot`. -/
theorem multiShot_draws :
    {p : ℝ × ℝ | p.1 ∈ Set.Ico (0 : ℝ) 1 ∧ p.2 ∈ Set.Ico (0 : ℝ) 1 ∧
        powerUpTypeOf p.1 p.2 = PowerUpType.multiShot} =
      Set.Ico (33 / 100 : ℝ) 1 ×ˢ Set.Ico (66 / 100 : ℝ) 1 := by
  ext ⟨a, b⟩
  simp only [Set.mem_setOf_eq, Set.mem_prod, Set.mem_Ico, powerUpTypeOf]
  constructor
  · rintro ⟨⟨h1, h2⟩, ⟨h3, h4⟩, h5⟩
    by_cases ha : a < 33 / 100
    · simp [ha] at h5
    · by_cases hb : b < 66 / 100
      · simp [ha, hb] at h5
      · exact ⟨⟨not_lt.mp ha, h2⟩, not_lt.mp hb, h4⟩
  · rintro ⟨⟨h1, h2⟩, h3, h4⟩
    refine ⟨⟨by linarith, h2⟩, ⟨by linarith, h4⟩, ?_⟩
    simp [not_lt.mpr h1, not_lt.mpr h3]

/-! ## Bullets of a frame -/

/-- The movement step on a bullet with `velocity.y = 10` that is in the store when the step
runs with `delta > 0`: the step sets its `y` to `y + 10 * delta`, strictly larger, and
removes it exactly when the new `y` is at least 12. The bullets after the step are the moved
bullets with `y < 12`, in order. -/
theorem bullet_movement (M : MathFns) (t delta : ℚ) (st : Store) (b : Bullet)
    (hb : b ∈ st.bullets) (hv : b.velocity.y = 10) (hd : 0 < delta) :
    (moveBullet delta b).position.y = b.position.y + 10 * delta ∧
    b.position.y < (moveBullet delta b).position.y ∧
    (moveBullet delta b ∉ (movement M t delta st).bullets ↔
      12 ≤ (moveBullet delta b).position.y) ∧
    ((moveBullet delta b).position.y < 12 →
      moveBullet delta b ∈ (movement M t delta st).bullets) ∧
    (movement M t delta st).bullets =
      (st.bullets.map (moveBullet delta)).filter (fun b => decide (b.position.y < 12)) := by
  have hy : (moveBullet delta b).position.y = b.position.y + 10 * delta := by
    simp [moveBullet, hv]
  have hmem : moveBullet delta b ∈ (movement M t delta st).bullets ↔
      (moveBullet delta b).position.y < 12 := by
    simp only [movement, List.mem_filter, List.mem_map, decide_eq_true_eq]
    constructor
    · exact fun h => h.2
    · exact fun h => ⟨⟨b, hb, rfl⟩, h⟩
  refine ⟨hy, ?_, ?_, ?_, rfl⟩
  · rw [hy]
    linarith
  · rw [hmem, not_lt]
  · exact hmem.mpr

/-- The stale index of the bullet loop on bullets: the second hit calls `removeBullet(1)` on
the already shortened array, which removes the bullet at `(6, 0)`; the bullet at `(3, 0)`,
which hit an enemy, is the one left after the frame. -/
theorem stale_index_removes_wrong_bullet :
    (∀ e ∈ threeBulletsTwoEnemies.store.enemies,
      overlaps e.position (bulletAt 6 0).position = false) ∧
    (gameLogicTick evalMath (fun _ => 0) 1 (1 / 60) threeBulletsTwoEnemies).store.bullets =
      [moveBullet (1 / 60) (bulletAt 3 0)] := by
  decide!

/-- The spawners add no bullet. -/
theorem snapshot_bullets (rng : ℕ → ℚ) (now delta : ℚ) (g : GameLogic) :
    (snapshot rng now delta g).bullets = g.store.bullets := by
  have he : ∀ (g1 : GameLogic) (k : ℕ),
      (spawnEnemy rng now delta g1 k).1.store.bullets = g1.store.bullets := by
    intro g1 k
    by_cases h : 2 ≤ g1.enemySpawnTimer + delta <;> simp [spawnEnemy, addEnemy, h]
  have hp : ∀ (g1 : GameLogic) (k : ℕ),
      (spawnPowerUp rng delta g1 k).1.store.bullets = g1.store.bullets := by
    intro g1 k
    by_cases h : 10 ≤ g1.powerUpSpawnTimer + delta <;> simp [spawnPowerUp, addPowerUp, h]
  have hc : ∀ (g1 : GameLogic) (k : ℕ),
      (spawnCollectible rng now delta g1 k).1.store.bullets = g1.store.bullets := by
    intro g1 k
    by_cases h : 5 ≤ g1.collectibleSpawnTimer + delta <;>
      simp [spawnCollectible, addCollectible, h]
  unfold snapshot spawnPhase
  simp only []
  rw [hc, hp, he]
  rfl

theorem powerUpScan_bullets (now : ℚ) (snap st : Store) :
    (powerUpScan now snap st).bullets = st.bullets :=
  foldl_frame (powerUpStep snap.playerPosition now) (fun s : Store => s.bullets)
    (fun b a => by
      unfold powerUpStep
      split <;> simp [activatePowerUp, removePowerUp])
    snap.powerUps.enum st

theorem collectibleScan_bullets (M : MathFns) (snap st : Store) :
    (collectibleScan M snap st).bullets = st.bullets :=
  foldl_frame (collectibleStep M snap.playerPosition) (fun s : Store => s.bullets)
    (fun b a => by
      unfold collectibleStep
      split <;> simp [setScore, removeCollectible])
    snap.collectibles.enum st

/-- In a frame that runs and in which no snapshot enemy overlaps a snapshot bullet, the
bullets after the frame are the moved bullets of the frame start with `y < 12`. -/
theorem gameLogicTick_bullets_of_no_hit (M : MathFns) (rng : ℕ → ℚ) (now delta : ℚ)
    (g : GameLogic) (hgo : g.store.gameOver = false)
    (hn : ∀ e ∈ (snapshot rng now delta g).enemies, ∀ b ∈ (snapshot rng now delta g).bullets,
      overlaps e.position b.position = false) :
    (gameLogicTick M rng now delta g).store.bullets =
      (g.store.bullets.map (moveBullet delta)).filter
        (fun b => decide (b.position.y < 12)) := by
  rw [gameLogicTick_store M rng now delta g hgo]
  have m1 : ∀ st : Store, (movement M now delta st).bullets =
      (st.bullets.map (moveBullet delta)).filter (fun b => decide (b.position.y < 12)) :=
    fun st => rfl
  rw [m1]
  unfold collisionPhase
  simp only []
  rw [collectibleScan_bullets, powerUpScan_bullets, (resolvePlayerCollisions_frame _ _).2.2.2.2,
    enemyScan_fst_of_no_hit now _ hn, snapshot_bullets]

/-! ## Claims -/

/-- C1: a frame that starts with `gameOver = false` and at least one life (every state of a
run with `gameOver = false` has one, `reachable_lives_pos`) ends with `lives = max 0 (lives - c)`, where `c` counts the snapshot
enemies within 0.6 of the player on both axes, and with `gameOver = true` exactly when the new
lives are 0; with 3 lives and 3 colliding enemies the frame ends with 0 lives and
`gameOver = true`. -/
theorem lives_after_tick (M : MathFns) (rng : ℕ → ℚ) (now delta : ℚ) (g : GameLogic)
    (hgo : g.store.gameOver = false) (hl : 0 < g.store.lives) :
    (gameLogicTick M rng now delta g).store.lives =
      max 0 (g.store.lives - (((snapshot rng now delta g).enemies.countP
        (fun e => overlaps e.position (snapshot rng now delta g).playerPosition) : ℕ) : ℤ)) ∧
    ((gameLogicTick M rng now delta g).store.gameOver = true ↔
      (gameLogicTick M rng now delta g).store.lives = 0) ∧
    (g.store.lives = 3 →
      (snapshot rng now delta g).enemies.countP
        (fun e => overlaps e.position (snapshot rng now delta g).playerPosition) = 3 →
      (gameLogicTick M rng now delta g).store.lives = 0 ∧
      (gameLogicTick M rng now delta g).store.gameOver = true) := by
  obtain ⟨h1, h2⟩ := gameLogicTick_lives M rng now delta g hgo
  rw [collidingIndices_length] at h1 h2
  rw [h1, h2]
  generalize (snapshot rng now delta g).enemies.countP
    (fun e => overlaps e.position (snapshot rng now delta g).playerPosition) = c
  have hc : (0 : ℤ) ≤ (c : ℤ) := Int.natCast_nonneg c
  refine ⟨?_, ?_, ?_⟩
  · by_cases h : 0 < c
    · simp [h]
    · have : c = 0 := by omega
      subst this
      simp [le_of_lt hl]
  · by_cases h : 0 < c
    · by_cases h3 : g.store.lives - (c : ℤ) ≤ 0
      · simp [h, h3]
      · simp only [h, h3, and_false, if_false, if_true, Bool.false_eq_true, false_iff]
        intro h4
        have := le_max_right 0 (g.store.lives - (c : ℤ))
        omega
    · have : c = 0 := by omega
      subst this
      simp only [lt_irrefl, false_and, if_false, Bool.false_eq_true, false_iff]
      omega
  · intro h3 h4
    subst h4
    rw [h3]
    simp

/-- C1, witness: three lives and three enemies on the player. -/
theorem lives_after_tick_witness :
    threeOnPlayer.store.gameOver = false ∧ 0 < threeOnPlayer.store.lives ∧
    (gameLogicTick evalMath (fun _ => 0) 1 (1 / 60) threeOnPlayer).store.lives = 0 ∧
    (gameLogicTick evalMath (fun _ => 0) 1 (1 / 60) threeOnPlayer).store.gameOver = true :=
  ⟨by decide!, by decide!,
    (lives_after_tick evalMath (fun _ => 0) 1 (1 / 60) threeOnPlayer (by decide!)
      (by decide!)).2.2 (by decide!) (by decide!)⟩

/-- C2, the code at the failing input: one bullet lies inside the box of the first two of
three enemies. The second hit removes index 1 of the already shortened array, which is the
third enemy, so the enemy left after the frame is the second one, which overlaps the bullet,
and the third one, which overlaps nothing, is gone. -/
theorem stale_index_removes_wrong_enemy :
    overlaps (enemyAt (1 / 10) 0).position (bulletAt 0 0).position = true ∧
    overlaps (enemyAt 5 5).position (bulletAt 0 0).position = false ∧
    overlaps (enemyAt 5 5).position oneBulletTwoEnemies.store.playerPosition = false ∧
    (gameLogicTick evalMath (fun _ => 0) 1 (1 / 60) oneBulletTwoEnemies).store.enemies =
      [enemyAt (1 / 10) 0] := by
  decide!

/-- C3, the code at the failing input: two bullets lie inside the box of one enemy. The
scan goes on over the snapshot after the first hit has removed the enemy, so the frame adds
two explosions and 200 points for a single enemy that overlaps a bullet. -/
theorem double_credit_for_one_enemy :
    (hitEnemies (snapshot (fun _ => 0) 1 (1 / 60) twoBulletsOneEnemy)).length = 1 ∧
    (gameLogicTick evalMath (fun _ => 0) 1 (1 / 60) twoBulletsOneEnemy).store.explosions.length
      = 2 ∧
    (gameLogicTick evalMath (fun _ => 0) 1 (1 / 60) twoBulletsOneEnemy).store.score =
      twoBulletsOneEnemy.store.score + 1 / 60 * 20 + 200 := by
  decide!

/-- C4, the code at the failing input: two collectibles on the player, a third at distance
5. The second pickup removes index 1 of the already shortened array, which is the third
collectible, so the collectible left after the frame is the second one, which was in range,
and the third one, out of range, is gone. -/
theorem stale_index_removes_wrong_collectible :
    inPickupRange evalMath threeCollectibles.store.playerPosition
      (collectibleAt 0 (-8) (3 / 5)) = true ∧
    inPickupRange evalMath threeCollectibles.store.playerPosition
      (collectibleAt 3 (-4) (7 / 10)) = false ∧
    (gameLogicTick evalMath (fun _ => 0) 1 (1 / 60) threeCollectibles).store.collectibles =
      [moveCollectible (1 / 60) (collectibleAt 0 (-8) (3 / 5))] := by
  decide!

/-- C5, counterexample: a frame of one second on a game without entities raises the score
from 0 to 20. -/
theorem score_unchanged_counterexample :
    bulletHits (snapshot (fun _ => 0) 1 1 emptyGame) = [] ∧
    pickedUp evalMath (snapshot (fun _ => 0) 1 1 emptyGame) = [] ∧
    emptyGame.store.score = 0 ∧
    (gameLogicTick evalMath (fun _ => 0) 1 1 emptyGame).store.score = 20 := by
  decide!

/-- C5, amended: in a frame in which no snapshot enemy overlaps a snapshot bullet and no
snapshot collectible is within pickup range, the score grows by the time accrual
`delta * 20` of line 340 and by nothing else, whether or not a power-up is picked up; with
`gameOver = true` it is unchanged. -/
theorem score_only_accrues_without_events (M : MathFns) (rng : ℕ → ℚ) (now delta : ℚ)
    (g : GameLogic)
    (hb : ∀ e ∈ (snapshot rng now delta g).enemies, ∀ b ∈ (snapshot rng now delta g).bullets,
      overlaps e.position b.position = false)
    (hc : ∀ c ∈ (snapshot rng now delta g).collectibles,
      inPickupRange M (snapshot rng now delta g).playerPosition c = false) :
    (gameLogicTick M rng now delta g).store.score =
      g.store.score + (if g.store.gameOver then 0 else delta * 20) := by
  by_cases hgo : g.store.gameOver = true
  · simp [gameLogicTick, hgo]
  · have hgo' : g.store.gameOver = false := by simpa using hgo
    have h1 : bulletHits (snapshot rng now delta g) = [] := by
      unfold bulletHits
      rw [List.flatMap_eq_nil_iff]
      intro e he
      rw [List.map_eq_nil_iff, List.filter_eq_nil_iff]
      intro b hb2
      simp [hb e he b hb2]
    have h2 : pickedUp M (snapshot rng now delta g) = [] := by
      unfold pickedUp
      rw [List.filter_eq_nil_iff]
      intro c hc2
      simp [hc c hc2]
    rw [gameLogicTick_score M rng now delta g hgo', h1, h2]
    simp [hgo']

/-- C5, witness: a frame of one second on a game without entities. -/
theorem score_only_accrues_without_events_witness :
    (gameLogicTick evalMath (fun _ => 0) 1 1 emptyGame).store.score =
      emptyGame.store.score + (if emptyGame.store.gameOver then 0 else 1 * 20) :=
  score_only_accrues_without_events evalMath (fun _ => 0) 1 1 emptyGame
    (by decide!) (by decide!)

/-- C6: the score never decreases: in a frame with `delta ≥ 0` in which every collectible
has a non-negative size (those in the store, and the one the spawner may add, whose size
comes from a non-negative `Math.random()`), the score after the frame is at least the score
before it. -/
theorem score_never_decreases (M : MathFns) (rng : ℕ → ℚ) (now delta : ℚ) (g : GameLogic)
    (hd : 0 ≤ delta) (hs : ∀ c ∈ g.store.collectibles, 0 ≤ c.size) (hr : ∀ k, 0 ≤ rng k) :
    g.store.score ≤ (gameLogicTick M rng now delta g).store.score := by
  by_cases hgo : g.store.gameOver = true
  · simp [gameLogicTick, hgo]
  · have hgo' : g.store.gameOver = false := by simpa using hgo
    have hsnap : ∀ c ∈ (snapshot rng now delta g).collectibles, 0 ≤ c.size := by
      intro c hc
      rcases snapshot_collectibles rng now delta g with h | ⟨c0, k, hk, h⟩
      · rw [h] at hc
        exact hs c hc
      · rw [h, List.mem_append, List.mem_singleton] at hc
        rcases hc with hc | rfl
        · exact hs c hc
        · rw [hk]
          have := hr k
          positivity
    have hsum : 0 ≤ ((pickedUp M (snapshot rng now delta g)).map collectiblePoints).sum := by
      apply List.sum_nonneg
      intro x hx
      rw [List.mem_map] at hx
      obtain ⟨c, hc, rfl⟩ := hx
      exact collectiblePoints_nonneg c (hsnap c (List.mem_of_mem_filter hc))
    have hlen : (0 : ℚ) ≤ 100 * ((bulletHits (snapshot rng now delta g)).length : ℚ) := by
      positivity
    rw [gameLogicTick_score M rng now delta g hgo']
    nlinarith [hd, hsum, hlen]

/-- C6, witness: the frame with two collectibles on the player. -/
theorem score_never_decreases_witness :
    (0 : ℚ) ≤ 1 / 60 ∧ (∀ c ∈ threeCollectibles.store.collectibles, 0 ≤ c.size) ∧
    (∀ k : ℕ, (0 : ℚ) ≤ (fun _ => 0) k) ∧
    threeCollectibles.store.score ≤
      (gameLogicTick evalMath (fun _ => 0) 1 (1 / 60) threeCollectibles).store.score :=
  ⟨by decide!, by decide!, fun _ => le_refl 0,
    score_never_decreases evalMath (fun _ => 0) 1 (1 / 60) threeCollectibles (by decide!)
      (by decide!) (fun _ => le_refl 0)⟩

/-- C7, counterexample: the enemy's position recomputed for the frame's elapsed time 4 is the
player's position, its stored position is 0.8 above the player; the frame registers no
collision and leaves the three lives, and the enemy ends the frame on the player. -/
theorem collision_sees_stored_position_counterexample :
    overlaps (moveEnemy evalMath 4 descendingEnemy).position
      descendingGame.store.playerPosition = true ∧
    (enemyScan 4 (snapshot (fun _ => 0) 4 (1 / 5) descendingGame)).2 = [] ∧
    (gameLogicTick evalMath (fun _ => 0) 4 (1 / 5) descendingGame).store.lives = 3 ∧
    (gameLogicTick evalMath (fun _ => 0) 4 (1 / 5) descendingGame).store.enemies =
      [moveEnemy evalMath 4 descendingEnemy] := by
  decide!

/-- C7, amended: the collision scan of a frame, which runs before the movement step, sees
the positions stored at the start of the frame: the snapshot index `i` is registered as a
player collision exactly when the stored position of enemy `i` is within 0.6 of the player
on both axes, whatever its position recomputed for the frame's elapsed time. -/
theorem collision_sees_stored_position (rng : ℕ → ℚ) (now delta : ℚ) (g : GameLogic)
    (i : ℕ) :
    i ∈ (enemyScan now (snapshot rng now delta g)).2 ↔
      ∃ e : Enemy, (snapshot rng now delta g).enemies[i]? = some e ∧
        |e.position.x - (snapshot rng now delta g).playerPosition.x| < 6 / 10 ∧
        |e.position.y - (snapshot rng now delta g).playerPosition.y| < 6 / 10 := by
  rw [enemyScan_snd]
  unfold collidingIndices
  simp only [List.mem_map, List.mem_filter, List.mem_enum_iff_getElem?, overlaps,
    Bool.and_eq_true, decide_eq_true_eq]
  constructor
  · rintro ⟨⟨j, e⟩, ⟨h1, h2⟩, rfl⟩
    exact ⟨e, h1, h2⟩
  · rintro ⟨e, h1, h2⟩
    exact ⟨(i, e), ⟨h1, h2⟩, rfl⟩

/-- C8: after the movement step at elapsed time `t` every surviving enemy is at `(x, y, 0)`
with `y = initialPosition.y + velocity.y * (t - spawnTime)` and
`x = initialPosition.x + velocity.x * (t - spawnTime)` for a straight enemy,
`x = initialPosition.x + amplitude * sin (frequency * (t - spawnTime))` otherwise; the moved
enemy does not depend on the stored position; and a straight enemy spawned at `(0, 10)` with
velocity `(0, -4, 0)` at time `T` is at `(0, 6, 0)` at time `T + 1` and survives. -/
theorem enemy_position_after_movement (M : MathFns) (t delta : ℚ) (st : Store) :
    (∀ e ∈ (movement M t delta st).enemies,
      e.position =
        ⟨if e.type = EnemyType.straight then
            e.initialPosition.x + e.velocity.x * (t - e.spawnTime)
          else e.initialPosition.x + e.amplitude * M.sin (e.frequency * (t - e.spawnTime)),
          e.initialPosition.y + e.velocity.y * (t - e.spawnTime), 0⟩) ∧
    (∀ (e : Enemy) (p : Vec3), moveEnemy M t { e with position := p } = moveEnemy M t e) ∧
    (∀ (T amplitude frequency : ℚ) (p : Vec3) (s : Store),
      (movement M (T + 1) delta
        { s with enemies :=
            [{ position := p, initialPosition := ⟨0, 10, 0⟩, velocity := ⟨0, -4, 0⟩,
               type := EnemyType.straight, amplitude := amplitude, frequency := frequency,
               spawnTime := T }] }).enemies.map (fun e => e.position) = [⟨0, 6, 0⟩]) := by
  refine ⟨?_, ?_, ?_⟩
  · intro e he
    simp only [movement, List.mem_filter, List.mem_map] at he
    obtain ⟨⟨e0, -, rfl⟩, -⟩ := he
    simp only [moveEnemy]
  · intro e p
    rfl
  · intro T amplitude frequency p s
    have h : decide ((-12 : ℚ) < 10 + -4) = true := by norm_num
    simp only [movement, moveEnemy, List.map, add_sub_cancel_left, mul_one, if_true, mul_zero,
      add_zero, List.filter, h]
    norm_num

/-- C9, the code at the failing input: from rest, `right` is held for two frames of 0.1 s,
which brings the stored velocity to `(6, 0, 0)`, the cap; then no key is held during a frame
of 0.2 s. The cap of lines 545-550 does not apply (the speed is 6), the deceleration
`v -= v * 20 * delta` of line 552, which comes after the cap, turns 6 into -18, and the
velocity stored has magnitude 18 > 6. -/
theorem deceleration_overshoots_cap :
    cappedPlayer.store.playerVelocity = ⟨6, 0, 0⟩ ∧
    maxSpeed cappedPlayer.store.activePowerUps = 6 ∧
    (playerFrame evalMath noKeys (4 / 10) (2 / 10) cappedPlayer).store.playerVelocity =
      ⟨-18, 0, 0⟩ ∧
    ¬ ((-18 : ℚ) ^ 2 + 0 ^ 2 ≤ maxSpeed cappedPlayer.store.activePowerUps ^ 2) := by
  decide!

/-- C10: a player update that runs writes to the store a `playerPosition` with `x` and `y`
in `[-8, 8]` and `z = 0`, whatever the prior position, velocity, keys and delta. -/
theorem player_position_clamped (M : MathFns) (keys : Keys) (now delta : ℚ) (p : Player)
    (mesh : PlayerMesh) (hm : p.mesh = some mesh) (hgo : p.store.gameOver = false) :
    -8 ≤ (playerFrame M keys now delta p).store.playerPosition.x ∧
    (playerFrame M keys now delta p).store.playerPosition.x ≤ 8 ∧
    -8 ≤ (playerFrame M keys now delta p).store.playerPosition.y ∧
    (playerFrame M keys now delta p).store.playerPosition.y ≤ 8 ∧
    (playerFrame M keys now delta p).store.playerPosition.z = 0 := by
  obtain ⟨hp, -⟩ := playerFrame_store M keys now delta p mesh hm hgo
  rw [hp]
  refine ⟨le_max_left _ _, ?_, le_max_left _ _, ?_, rfl⟩
  · exact max_le (by norm_num) (min_le_left _ _)
  · exact max_le (by norm_num) (min_le_left _ _)

/-- C10, witness: the coasting player after a frame of 2 s without keys, stopped at the
left wall. -/
theorem player_position_clamped_witness :
    coastingPlayer.store.gameOver = false ∧
    (playerFrame evalMath noKeys 1 2 coastingPlayer).store.playerPosition = ⟨-8, 0, 0⟩ ∧
    -8 ≤ (playerFrame evalMath noKeys 1 2 coastingPlayer).store.playerPosition.x :=
  ⟨by decide!, by decide!,
    (player_position_clamped evalMath noKeys 1 2 coastingPlayer
      { position := ⟨0, 0, 0⟩, rotationX := 0, rotationZ := 0 } rfl (by decide!)).1⟩

/-- C11: in a player update that runs, with cooldown timer `t` before it: if the fire key is
held and `t + delta` reaches the interval (0.05 with an active `speed` power-up, 0.15
otherwise), then with an unexpired `multi-shot` power-up exactly the three bullets at
`(x - 0.3, y + 0.6, 0)`, `(x, y + 0.6, 0)`, `(x + 0.3, y + 0.6, 0)` with velocities
`(-1, 10, 0)`, `(0, 10, 0)`, `(1, 10, 0)` are appended, and otherwise exactly the bullet at
`(x, y + 0.6, 0)` with velocity `(0, 10, 0)`, where `(x, y)` is the clamped position written
to the store, and the timer becomes 0; in every other case no bullet is appended and the
timer becomes `t + delta`. -/
theorem fire_control (M : MathFns) (keys : Keys) (now delta : ℚ) (p : Player)
    (mesh : PlayerMesh) (hm : p.mesh = some mesh) (hgo : p.store.gameOver = false) :
    shootInterval p.store.activePowerUps =
      (if p.store.activePowerUps.any (fun pu => decide (pu.type = PowerUpType.speed))
        then 5 / 100 else 15 / 100) ∧
    (multiShotActive now p.store.activePowerUps = true ↔
      ∃ pu ∈ p.store.activePowerUps,
        pu.type = PowerUpType.multiShot ∧ now - pu.startTime < pu.duration) ∧
    (keys.shoot = true → shootInterval p.store.activePowerUps ≤ p.shootTimer + delta →
      (playerFrame M keys now delta p).shootTimer = 0 ∧
      (multiShotActive now p.store.activePowerUps = true →
        (playerFrame M keys now delta p).store.bullets = p.store.bullets ++
          [{ position := ⟨(playerFrame M keys now delta p).store.playerPosition.x - 3 / 10,
                (playerFrame M keys now delta p).store.playerPosition.y + 6 / 10, 0⟩,
             velocity := ⟨-1, 10, 0⟩ },
           { position := ⟨(playerFrame M keys now delta p).store.playerPosition.x,
                (playerFrame M keys now delta p).store.playerPosition.y + 6 / 10, 0⟩,
             velocity := ⟨0, 10, 0⟩ },
           { position := ⟨(playerFrame M keys now delta p).store.playerPosition.x + 3 / 10,
                (playerFrame M keys now delta p).store.playerPosition.y + 6 / 10, 0⟩,
             velocity := ⟨1, 10, 0⟩ }]) ∧
      (multiShotActive now p.store.activePowerUps = false →
        (playerFrame M keys now delta p).store.bullets = p.store.bullets ++
          [{ position := ⟨(playerFrame M keys now delta p).store.playerPosition.x,
                (playerFrame M keys now delta p).store.playerPosition.y + 6 / 10, 0⟩,
             velocity := ⟨0, 10, 0⟩ }])) ∧
    (¬ (keys.shoot = true ∧ shootInterval p.store.activePowerUps ≤ p.shootTimer + delta) →
      (playerFrame M keys now delta p).store.bullets = p.store.bullets ∧
      (playerFrame M keys now delta p).shootTimer = p.shootTimer + delta) := by
  refine ⟨rfl, ?_, ?_, ?_⟩
  · simp [multiShotActive]
  · intro hk hi
    unfold playerFrame
    rw [hm]
    simp only [hgo, Bool.false_eq_true, if_false, hk, hi, decide_True, Bool.and_self, if_true]
    refine ⟨trivial, ?_, ?_⟩
    · intro hms
      simp [hms, fire, addBullet]
    · intro hms
      simp [hms, fire, addBullet]
  · intro hn
    unfold playerFrame
    rw [hm]
    have hc : (keys.shoot && decide (shootInterval p.store.activePowerUps ≤
        p.shootTimer + delta)) = false := by
      rcases hk : keys.shoot with _ | _
      · simp
      · simp only [Bool.true_and, decide_eq_false_iff_not]
        intro hi
        exact hn ⟨hk, hi⟩
    simp only [hgo, Bool.false_eq_true, if_false, hc]
    exact ⟨trivial, trivial⟩

/-- C11, witness: the fire key held with the timer at 0.1 and a frame of 0.1 s under an
unexpired `multi-shot` power-up: three bullets from the clamped position `(0, -8)`. -/
theorem fire_control_witness :
    multiShotPlayer.store.gameOver = false ∧
    (playerFrame evalMath shootKey 1 (1 / 10) multiShotPlayer).shootTimer = 0 ∧
    (playerFrame evalMath shootKey 1 (1 / 10) multiShotPlayer).store.bullets =
      [{ position := ⟨-3 / 10, -74 / 10, 0⟩, velocity := ⟨-1, 10, 0⟩ },
       { position := ⟨0, -74 / 10, 0⟩, velocity := ⟨0, 10, 0⟩ },
       { position := ⟨3 / 10, -74 / 10, 0⟩, velocity := ⟨1, 10, 0⟩ }] :=
  ⟨by decide!,
    ((fire_control evalMath shootKey 1 (1 / 10) multiShotPlayer
      { position := ⟨0, -8, 0⟩, rotationX := 0, rotationZ := 0 } rfl (by decide!)).2.2.1
      (by decide!) (by decide!)).1,
    by decide!⟩

/-- C12: `startGame` is idempotent, and the state it yields has `gameStarted = true`,
`gameOver = false`, `score = 0`, `lives = 3` and the six collections empty. -/
theorem startGame_idempotent (s : Store) :
    startGame (startGame s) = startGame s ∧
    (startGame s).gameStarted = true ∧ (startGame s).gameOver = false ∧
    (startGame s).score = 0 ∧ (startGame s).lives = 3 ∧
    (startGame s).bullets = [] ∧ (startGame s).powerUps = [] ∧ (startGame s).enemies = [] ∧
    (startGame s).collectibles = [] ∧ (startGame s).explosions = [] ∧
    (startGame s).activePowerUps = [] := by
  refine ⟨rfl, rfl, rfl, rfl, rfl, rfl, rfl, rfl, rfl, rfl, rfl⟩

/-- C13: with `gameOver = true` a frame of `GameLogic` and a frame of `Player` return at
once: the store, and the refs of both components, are unchanged for every input, clock value
and delta. -/
theorem game_over_halts (M : MathFns) (rng : ℕ → ℚ) (keys : Keys) (now delta : ℚ)
    (g : GameLogic) (p : Player) (hg : g.store.gameOver = true)
    (hp : p.store.gameOver = true) :
    gameLogicTick M rng now delta g = g ∧ (gameLogicTick M rng now delta g).store = g.store ∧
    playerFrame M keys now delta p = p ∧ (playerFrame M keys now delta p).store = p.store := by
  have h1 : gameLogicTick M rng now delta g = g := by simp [gameLogicTick, hg]
  have h2 : playerFrame M keys now delta p = p := by
    unfold playerFrame
    split
    · rfl
    · simp [hp]
  rw [h1, h2]
  exact ⟨rfl, rfl, rfl, rfl⟩

/-- C13, witness: a frame of one second on a finished game, with the fire key held. -/
theorem game_over_halts_witness :
    finishedStore.gameOver = true ∧
    (gameLogicTick evalMath (fun _ => 0) 7 1 ⟨finishedStore, 3, 11, 6⟩).store = finishedStore ∧
    (playerFrame evalMath shootKey 7 1
      ⟨finishedStore, some { position := ⟨0, -8, 0⟩, rotationX := 0, rotationZ := 0 }, 1⟩).store
      = finishedStore :=
  ⟨by decide!,
    (game_over_halts evalMath (fun _ => 0) shootKey 7 1 ⟨finishedStore, 3, 11, 6⟩
      ⟨finishedStore, some { position := ⟨0, -8, 0⟩, rotationX := 0, rotationZ := 0 }, 1⟩
      (by decide!) (by decide!)).2.1,
    (game_over_halts evalMath (fun _ => 0) shootKey 7 1 ⟨finishedStore, 3, 11, 6⟩
      ⟨finishedStore, some { position := ⟨0, -8, 0⟩, rotationX := 0, rotationZ := 0 }, 1⟩
      (by decide!) (by decide!)).2.2.2⟩

/-- C17: in every store state reached from the state `startGame` yields, from any store, by
any sequence of frames of `GameLogic` and of `Player` (any inputs, clock values and deltas),
the lives, an integer, are between 0 and 3 and `gameOver` is true exactly when they are 0. -/
theorem lives_invariant (s0 s : Store) (h : ReachableFrom (startGame s0) s) :
    0 ≤ s.lives ∧ s.lives ≤ 3 ∧ (s.gameOver = true ↔ s.lives = 0) := by
  induction h with
  | refl => simp [startGame]
  | tick M rng now delta g _ ih =>
    exact gameLogicTick_keeps_lives_invariant M rng now delta g ih
  | player M keys now delta p _ ih =>
    obtain ⟨h1, h2⟩ := playerFrame_frame M keys now delta p
    rw [h1, h2]
    exact ih

/-- C17, witness: three frames after `startGame`, the third losing a life to an enemy that
reached the player. -/
theorem lives_invariant_witness :
    ReachableFrom (startGame initialStore) threeFrames.store ∧
    threeFrames.store.lives = 2 ∧ threeFrames.store.gameOver = false ∧
    (0 ≤ threeFrames.store.lives ∧ threeFrames.store.lives ≤ 3 ∧
      (threeFrames.store.gameOver = true ↔ threeFrames.store.lives = 0)) :=
  ⟨ReachableFrom.tick _ _ _ _ _ (ReachableFrom.tick _ _ _ _ _
      (ReachableFrom.tick _ _ _ _ startedGame ReachableFrom.refl)),
    by decide!, by decide!,
    lives_invariant initialStore threeFrames.store
      (ReachableFrom.tick _ _ _ _ _ (ReachableFrom.tick _ _ _ _ _
        (ReachableFrom.tick _ _ _ _ startedGame ReachableFrom.refl)))⟩

/-- C16: in a frame in which no snapshot enemy overlaps a snapshot bullet, the enemies left
after collision resolution, before the movement step, are the snapshot enemies that fail the
box test against the player, in their original order; and removing the registered indices
one at a time in descending order is filtering the snapshot by non-membership of the index
in the collision set. -/
theorem descending_removal_is_filter (M : MathFns) (rng : ℕ → ℚ) (now delta : ℚ)
    (g : GameLogic)
    (hb : ∀ e ∈ (snapshot rng now delta g).enemies, ∀ b ∈ (snapshot rng now delta g).bullets,
      overlaps e.position b.position = false) :
    (collisionPhase M now (snapshot rng now delta g)).enemies =
      (snapshot rng now delta g).enemies.filter
        (fun e => !overlaps e.position (snapshot rng now delta g).playerPosition) ∧
    (((enemyScan now (snapshot rng now delta g)).2.insertionSort (fun a b => b ≤ a)).foldl
        (fun s index => removeEnemy index s) (enemyScan now (snapshot rng now delta g)).1).enemies
      = ((snapshot rng now delta g).enemies.enum.filter
          (fun ie => decide (ie.1 ∉ (enemyScan now (snapshot rng now delta g)).2))).map
          Prod.snd := by
  have hfst := enemyScan_fst_of_no_hit now (snapshot rng now delta g) hb
  constructor
  · unfold collisionPhase
    simp only []
    rw [(collectibleScan_frame _ _ _).2.2.2, (powerUpScan_frame _ _ _).2.2.2.2.2,
      resolvePlayerCollisions_enemies, enemyScan_snd, hfst, foldl_removeAt_collidingIndices,
      keepIndices_collidingIndices]
  · rw [foldl_removeEnemy_enemies, enemyScan_snd, hfst, foldl_removeAt_collidingIndices]
    rfl

/-- C16, witness: four enemies, the first and the third on the player, no bullet: the
second and the fourth are left, in that order. -/
theorem descending_removal_is_filter_witness :
    (∀ e ∈ (snapshot (fun _ => 0) 1 (1 / 60) mixedEnemies).enemies,
      ∀ b ∈ (snapshot (fun _ => 0) 1 (1 / 60) mixedEnemies).bullets,
        overlaps e.position b.position = false) ∧
    (collisionPhase evalMath 1 (snapshot (fun _ => 0) 1 (1 / 60) mixedEnemies)).enemies =
      [enemyAt 5 5, enemyAt 3 3] ∧
    (collisionPhase evalMath 1 (snapshot (fun _ => 0) 1 (1 / 60) mixedEnemies)).enemies =
      (snapshot (fun _ => 0) 1 (1 / 60) mixedEnemies).enemies.filter
        (fun e => !overlaps e.position
          (snapshot (fun _ => 0) 1 (1 / 60) mixedEnemies).playerPosition) :=
  ⟨by decide!, by decide!,
    (descending_removal_is_filter evalMath (fun _ => 0) 1 (1 / 60) mixedEnemies
      (by decide!)).1⟩

/-- C15, the code on independent uniform draws: with `(r1, r2)` uniform on the unit square,
the spawner picks `speed` with probability 0.33, `shield` with probability
`0.67 * 0.66 = 0.4422` and `multi-shot` with probability `0.67 * 0.34 = 0.2278`, because the
second comparison of line 367 uses a fresh `Math.random()`; with the draws 0.9 and 0.5 the
spawn stores a `shield`. -/
theorem powerUp_type_probabilities :
    MeasureTheory.volume
      {p : ℝ × ℝ | p.1 ∈ Set.Ico (0 : ℝ) 1 ∧ p.2 ∈ Set.Ico (0 : ℝ) 1 ∧
        powerUpTypeOf p.1 p.2 = PowerUpType.speed} = ENNReal.ofReal (33 / 100) ∧
    MeasureTheory.volume
      {p : ℝ × ℝ | p.1 ∈ Set.Ico (0 : ℝ) 1 ∧ p.2 ∈ Set.Ico (0 : ℝ) 1 ∧
        powerUpTypeOf p.1 p.2 = PowerUpType.shield} = ENNReal.ofReal (4422 / 10000) ∧
    MeasureTheory.volume
      {p : ℝ × ℝ | p.1 ∈ Set.Ico (0 : ℝ) 1 ∧ p.2 ∈ Set.Ico (0 : ℝ) 1 ∧
        powerUpTypeOf p.1 p.2 = PowerUpType.multiShot} = ENNReal.ofReal (2278 / 10000) ∧
    (spawnPowerUp spawnDraws (1 / 60) powerUpDue 0).1.store.powerUps =
      [{ position := ⟨0, 10, 0⟩, type := PowerUpType.shield, duration := 5 }] := by
  refine ⟨?_, ?_, ?_, by decide!⟩
  · rw [speed_draws, MeasureTheory.Measure.volume_eq_prod, MeasureTheory.Measure.prod_prod,
      Real.volume_Ico, Real.volume_Ico, ← ENNReal.ofReal_mul (by norm_num)]
    congr 1
    norm_num
  · rw [shield_draws, MeasureTheory.Measure.volume_eq_prod, MeasureTheory.Measure.prod_prod,
      Real.volume_Ico, Real.volume_Ico, ← ENNReal.ofReal_mul (by norm_num)]
    congr 1
    norm_num
  · rw [multiShot_draws, MeasureTheory.Measure.volume_eq_prod, MeasureTheory.Measure.prod_prod,
      Real.volume_Ico, Real.volume_Ico, ← ENNReal.ofReal_mul (by norm_num)]
    congr 1
    norm_num

/-- C14, counterexample: a bullet with `velocity.y = 10` inside the box of an enemy. Its new
`y` would be `1 / 6 < 12`, and the hit branch of the scan (lines 406-407) removes it in that
frame. -/
theorem bullet_removal_counterexample :
    bulletAt 0 0 ∈ bulletOnEnemy.store.bullets ∧ (bulletAt 0 0).velocity.y = 10 ∧
    (0 : ℚ) < 1 / 60 ∧
    (moveBullet (1 / 60) (bulletAt 0 0)).position.y < 12 ∧
    moveBullet (1 / 60) (bulletAt 0 0) ∉
      (gameLogicTick evalMath (fun _ => 0) 1 (1 / 60) bulletOnEnemy).store.bullets ∧
    (gameLogicTick evalMath (fun _ => 0) 1 (1 / 60) bulletOnEnemy).store.bullets = [] := by
  decide!

/-- C14, amended: in a frame that runs with `delta > 0` and in which no snapshot enemy
overlaps a snapshot bullet, every bullet with `velocity.y = 10` has its `y` set to
`y + 10 * delta`, strictly larger, and is removed in that frame exactly when the new `y` is
at least 12; with a new `y` below 12 it is kept, and the bullets after the frame are the
moved bullets with `y < 12`, in order. In any frame, the movement step removes a bullet that
is still in the store exactly when its new `y` is at least 12. -/
theorem bullet_removed_iff_out_of_range (M : MathFns) (rng : ℕ → ℚ) (now delta : ℚ)
    (g : GameLogic) (b : Bullet) (hgo : g.store.gameOver = false) (hd : 0 < delta)
    (hn : ∀ e ∈ (snapshot rng now delta g).enemies, ∀ b ∈ (snapshot rng now delta g).bullets,
      overlaps e.position b.position = false)
    (hb : b ∈ g.store.bullets) (hv : b.velocity.y = 10) :
    (moveBullet delta b).position.y = b.position.y + 10 * delta ∧
    b.position.y < (moveBullet delta b).position.y ∧
    (moveBullet delta b ∉ (gameLogicTick M rng now delta g).store.bullets ↔
      12 ≤ (moveBullet delta b).position.y) ∧
    ((moveBullet delta b).position.y < 12 →
      moveBullet delta b ∈ (gameLogicTick M rng now delta g).store.bullets) ∧
    (gameLogicTick M rng now delta g).store.bullets =
      (g.store.bullets.map (moveBullet delta)).filter
        (fun b => decide (b.position.y < 12)) ∧
    (∀ (st : Store) (b1 : Bullet), b1 ∈ st.bullets → b1.velocity.y = 10 →
      (moveBullet delta b1 ∉ (movement M now delta st).bullets ↔
        12 ≤ (moveBullet delta b1).position.y)) := by
  have hy : (moveBullet delta b).position.y = b.position.y + 10 * delta := by
    simp [moveBullet, hv]
  have hbul := gameLogicTick_bullets_of_no_hit M rng now delta g hgo hn
  have hmem : moveBullet delta b ∈ (gameLogicTick M rng now delta g).store.bullets ↔
      (moveBullet delta b).position.y < 12 := by
    rw [hbul]
    simp only [List.mem_filter, List.mem_map, decide_eq_true_eq]
    constructor
    · exact fun h => h.2
    · exact fun h => ⟨⟨b, hb, rfl⟩, h⟩
  refine ⟨hy, ?_, ?_, hmem.mpr, hbul, ?_⟩
  · rw [hy]
    linarith
  · rw [hmem, not_lt]
  · intro st b1 h1 h2
    exact (bullet_movement M now delta st b1 h1 h2 hd).2.2.1

/-- C14, witness: a frame of 1/60 s on bullets at heights 0 and 11.9 and no enemy: the first
is kept, the second crosses 12 and is removed. -/
theorem bullet_removed_iff_out_of_range_witness :
    twoBulletsGame.store.gameOver = false ∧ (0 : ℚ) < 1 / 60 ∧
    bulletAt 1 (119 / 10) ∈ twoBulletsGame.store.bullets ∧
    (moveBullet (1 / 60) (bulletAt 1 (119 / 10)) ∉
        (gameLogicTick evalMath (fun _ => 0) 1 (1 / 60) twoBulletsGame).store.bullets ↔
      12 ≤ (moveBullet (1 / 60) (bulletAt 1 (119 / 10))).position.y) ∧
    (gameLogicTick evalMath (fun _ => 0) 1 (1 / 60) twoBulletsGame).store.bullets =
      [moveBullet (1 / 60) (bulletAt 0 0)] :=
  ⟨by decide!, by decide!, by decide!,
    (bullet_removed_iff_out_of_range evalMath (fun _ => 0) 1 (1 / 60) twoBulletsGame
      (bulletAt 1 (119 / 10)) (by decide!) (by decide!) (by decide!) (by decide!) rfl).2.2.1,
    by decide!⟩

end SpaceInvaders
